import Mathlib

/-!
Verification of the college-helper assistant's core logic: the quota /
subscription access gate, the resource catalog, the admin payment-approval
pipeline, and the guided resource-entry conversation.  The Python source
(`database.py`, `handlers.py`) is shallowly embedded: the SQLite tables
become lists of records inside a `DB` value, every database function becomes
a pure Lean function from `DB` to a result paired with the successor `DB`,
and wall-clock time is an explicit `Nat` parameter (seconds).
-/

namespace CollegeBot

/-- Python truthiness for an optional TEXT column or parameter:
`None` and the empty string are falsy, everything else truthy. -/
def truthy : Option String → Bool
  | none => false
  | some s => !s.isEmpty

/-- Uppercasing as performed by Python's `str.upper()` on ASCII data: a
per-character map over the string's code points. -/
def toUpperStr (s : String) : String := ⟨s.data.map Char.toUpper⟩

/-- Lowercasing as performed by Python's `str.lower()` on ASCII data. -/
def toLowerStr (s : String) : String := ⟨s.data.map Char.toLower⟩

/-- Python's `str.strip()` on ASCII data: drop whitespace from both ends
(structurally recursive so that concrete instances evaluate). -/
def pyStrip (s : String) : String :=
  ⟨((s.data.dropWhile Char.isWhitespace).reverse.dropWhile Char.isWhitespace).reverse⟩

/-- Python's `str.startswith(pre)` via the code-point lists (structurally
recursive so that concrete instances evaluate). -/
def startsWithPy (s pre : String) : Bool := pre.data.isPrefixOf s.data

/-- Substring test, Python's `sub in s`. -/
def pyContains (sub s : String) : Bool := 2 ≤ (s.splitOn sub).length

/-- Python `int(text)` on an already-stripped string: optional sign followed
by at least one digit; `none` models the `ValueError`. -/
def parseIntPy (s : String) : Option Int :=
  let t := pyStrip s
  let core : Bool → List Char → Option Int := fun neg ds =>
    if !ds.isEmpty && ds.all Char.isDigit then
      let n : Nat := ds.foldl (fun a c => a * 10 + (c.toNat - 48)) 0
      some (if neg then -(n : Int) else (n : Int))
    else none
  match t.toList with
  | '+' :: r => core false r
  | '-' :: r => core true r
  | r => core false r

/-- One row of the `users` table. -/
structure UserRec where
  telegram_id : Int
  search_count : Nat
  is_paid : Bool
  expiry_date : Option Nat
  deriving DecidableEq, Repr

/-- Status column of `pending_payments`. -/
inductive PayStatus where
  | pending
  | verified
  deriving DecidableEq, Repr

/-- One row of the `pending_payments` table. -/
structure PaymentRec where
  telegram_id : Int
  reference_id : String
  request_time : Nat
  status : PayStatus
  deriving DecidableEq, Repr

/-- One row of the `resources` table; `rid` is the AUTOINCREMENT key and a
link column is `none` exactly when the SQL value is NULL. -/
structure ResourceRow where
  rid : Nat
  subject_code : String
  subject_name : String
  unit_number : Int
  notes_link : Option String
  ppt_link : Option String
  pyq_link : Option String
  deriving DecidableEq, Repr

/-- The whole SQLite database.  `access` is the `subject_access` table as an
association list from subject code to count; `nextRid` feeds AUTOINCREMENT. -/
structure DB where
  users : List UserRec
  resources : List ResourceRow
  payments : List PaymentRec
  access : List (String × Nat)
  nextRid : Nat
  deriving DecidableEq, Repr

def DB.empty : DB := ⟨[], [], [], [], 1⟩

/-! ## database.py -/

/-- `get_user`: `SELECT * FROM users WHERE telegram_id = ?`. -/
def get_user (db : DB) (tid : Int) : Option UserRec :=
  db.users.find? (fun u => u.telegram_id == tid)

/-- `create_user`: INSERT of a fresh row with `search_count = 0`; the UNIQUE
constraint on `telegram_id` makes a duplicate insert fail (return `false`). -/
def create_user (db : DB) (tid : Int) : Bool × DB :=
  if db.users.any (fun u => u.telegram_id == tid) then (false, db)
  else (true, { db with users := db.users ++ [⟨tid, 0, false, none⟩] })

/-- `increment_search_count`: `UPDATE users SET search_count = search_count + 1`. -/
def increment_search_count (db : DB) (tid : Int) : DB :=
  { db with users := db.users.map (fun u =>
      if u.telegram_id == tid then { u with search_count := u.search_count + 1 } else u) }

/-- `get_search_count`: the user's counter, defaulting to 0 when the row is absent. -/
def get_search_count (db : DB) (tid : Int) : Nat :=
  ((db.users.find? (fun u => u.telegram_id == tid)).map (·.search_count)).getD 0

/-- `add_pending_payment`: INSERT into `pending_payments`; the UNIQUE
constraint on `reference_id` turns a duplicate into an IntegrityError, which
the function catches, returning `false` with nothing written. -/
def add_pending_payment (db : DB) (tid : Int) (ref : String) (now : Nat) : Bool × DB :=
  if db.payments.any (fun p => p.reference_id == ref) then (false, db)
  else (true, { db with payments := db.payments ++ [⟨tid, ref, now, .pending⟩] })

/-- `verify_payment`: look a payment up by reference id — scoped to the
requester when a (nonzero) `telegram_id` is passed, otherwise restricted to
`status = 'pending'` — then mark it verified and activate the requester's
subscription for 7 days (604800 s).  Returns the requester id, or `none` for
the Python `False`. -/
def verify_payment (db : DB) (ref : String) (tidOpt : Option Int) (now : Nat) :
    Option Int × DB :=
  let byUser : Bool := match tidOpt with
    | some t => !(t == 0)
    | none => false
  let found : Option PaymentRec :=
    if byUser then
      db.payments.find? (fun p => p.reference_id == ref && p.telegram_id == tidOpt.getD 0)
    else
      db.payments.find? (fun p => p.reference_id == ref && p.status == PayStatus.pending)
  match found with
  | none => (none, db)
  | some p =>
    let payments' := db.payments.map (fun q =>
      if q.reference_id == ref then { q with status := PayStatus.verified } else q)
    let users' := db.users.map (fun u =>
      if u.telegram_id == p.telegram_id then
        { u with is_paid := true, expiry_date := some (now + 604800) } else u)
    (some p.telegram_id, { db with payments := payments', users := users' })

/-- `grant_access`: ensure the user row exists, then set the subscription
flag and a 7-day expiry directly. -/
def grant_access (db : DB) (tid : Int) (now : Nat) : Bool × DB :=
  let db1 := if (get_user db tid).isSome then db else (create_user db tid).2
  (true, { db1 with users := db1.users.map (fun u =>
      if u.telegram_id == tid then
        { u with is_paid := true, expiry_date := some (now + 604800) } else u) })

/-- `check_subscription`: reports whether the subscription is active and, as
a side effect, clears `is_paid`/`expiry_date` when the expiry has passed. -/
def check_subscription (db : DB) (tid : Int) (now : Nat) : Bool × DB :=
  match db.users.find? (fun u => u.telegram_id == tid) with
  | none => (false, db)
  | some u =>
    if !u.is_paid then (false, db)
    else match u.expiry_date with
      | none => (false, db)
      | some e =>
        if e < now then
          (false, { db with users := db.users.map (fun v =>
            if v.telegram_id == tid then { v with is_paid := false, expiry_date := none }
            else v) })
        else (true, db)

/-- `get_subscription_expiry`: a pure read — it reports the expiry only for a
still-active subscription and runs no UPDATE, so the database comes back
unchanged. -/
def get_subscription_expiry (db : DB) (tid : Int) (now : Nat) : Option Nat × DB :=
  match db.users.find? (fun u => u.telegram_id == tid) with
  | none => (none, db)
  | some u =>
    if !u.is_paid then (none, db)
    else match u.expiry_date with
      | none => (none, db)
      | some e => if e < now then (none, db) else (some e, db)

/-- `add_resource`: upsert keyed on (uppercased subject code, unit).  The
update branch always rewrites the subject name and overwrites exactly the
link columns whose parameter is truthy; the insert branch stores the
parameters as given. -/
def add_resource (db : DB) (code name : String) (unit : Int)
    (notes ppt pyq : Option String) : Bool × DB :=
  match db.resources.find? (fun r =>
      r.subject_code == toUpperStr code && r.unit_number == unit) with
  | some r =>
    (true, { db with resources := db.resources.map (fun s =>
      if s.rid == r.rid then
        { s with subject_name := name,
                 notes_link := if truthy notes then notes else s.notes_link,
                 ppt_link := if truthy ppt then ppt else s.ppt_link,
                 pyq_link := if truthy pyq then pyq else s.pyq_link }
      else s) })
  | none =>
    (true, { db with
      resources := db.resources ++
        [⟨db.nextRid, toUpperStr code, name, unit, notes, ppt, pyq⟩],
      nextRid := db.nextRid + 1 })

/-- The per-unit slice of a `get_resources` result: the unit's dictionary,
with a key present exactly when the field is `some`. -/
structure UnitRes where
  notes : Option String
  ppt : Option String
  pyq : Option String
  deriving DecidableEq, Repr

def UnitRes.empty : UnitRes := ⟨none, none, none⟩

/-- The `{unit: {type: link}}` dictionary, with its fixed keys 1..6. -/
abbrev ResMap := List (Int × UnitRes)

def initResMap : ResMap :=
  [(1, .empty), (2, .empty), (3, .empty), (4, .empty), (5, .empty), (6, .empty)]

/-- One iteration of the fill loop in `get_resources`: copy the row's truthy
links into the dictionary entry of its unit. -/
def applyRow (m : ResMap) (r : ResourceRow) : ResMap :=
  m.map (fun e =>
    if e.1 == r.unit_number then
      (e.1, { notes := if truthy r.notes_link then r.notes_link else e.2.notes,
              ppt := if truthy r.ppt_link then r.ppt_link else e.2.ppt,
              pyq := if truthy r.pyq_link then r.pyq_link else e.2.pyq })
    else e)

/-- `get_resources`: `none` when the subject has no rows; otherwise the
subject name of the first row together with the unit dictionary built from
placeholders for units 1..6. -/
def get_resources (db : DB) (code : String) : Option (String × ResMap) :=
  match db.resources.filter (fun r => r.subject_code == toUpperStr code) with
  | [] => none
  | r :: rs => some (r.subject_name, (r :: rs).foldl applyRow initResMap)

/-- Lookup inside a delivered resource map: the link stored for a unit and
resource type, `none` when the type key is absent (or the subject itself is). -/
def resLookup (db : DB) (code : String) (unit : Int) (rtype : String) : Option String :=
  match get_resources db code with
  | none => none
  | some (_, m) =>
    match m.find? (fun e => e.1 == unit) with
    | none => none
    | some e =>
      if rtype == "notes" then e.2.notes
      else if rtype == "ppt" then e.2.ppt
      else if rtype == "pyq" then e.2.pyq
      else none

/-- `remove_resource`: clear one link column of the (code, unit) row; when
all three columns are NULL afterwards the row itself is deleted. -/
def remove_resource (db : DB) (code : String) (unit : Int) (rtype : String) : Bool × DB :=
  match db.resources.find? (fun r =>
      r.subject_code == toUpperStr code && r.unit_number == unit) with
  | none => (false, db)
  | some r =>
    let fieldOk : Bool :=
      if rtype == "notes" then truthy r.notes_link
      else if rtype == "ppt" then truthy r.ppt_link
      else if rtype == "pyq" then truthy r.pyq_link
      else false
    if !fieldOk then (false, db)
    else
      let cleared := db.resources.map (fun s =>
        if s.rid == r.rid then
          if rtype == "notes" then { s with notes_link := none }
          else if rtype == "ppt" then { s with ppt_link := none }
          else { s with pyq_link := none }
        else s)
      let final :=
        match cleared.find? (fun s => s.rid == r.rid) with
        | some s =>
          if s.notes_link == none && s.ppt_link == none && s.pyq_link == none then
            cleared.filter (fun t => !(t.rid == r.rid))
          else cleared
        | none => cleared
      (true, { db with resources := final })

/-- `edit_resource`: overwrite one link column of an existing (code, unit) row. -/
def edit_resource (db : DB) (code : String) (unit : Int) (rtype newLink : String) :
    Bool × DB :=
  match db.resources.find? (fun r =>
      r.subject_code == toUpperStr code && r.unit_number == unit) with
  | none => (false, db)
  | some r =>
    if rtype == "notes" || rtype == "ppt" || rtype == "pyq" then
      (true, { db with resources := db.resources.map (fun s =>
        if s.rid == r.rid then
          if rtype == "notes" then { s with notes_link := some newLink }
          else if rtype == "ppt" then { s with ppt_link := some newLink }
          else { s with pyq_link := some newLink }
        else s) })
    else (false, db)

/-- `delete_subject`: drop every row of the subject, failing when none exist. -/
def delete_subject (db : DB) (code : String) : Bool × DB :=
  if (db.resources.filter (fun r => r.subject_code == toUpperStr code)).length == 0 then
    (false, db)
  else
    (true, { db with resources := db.resources.filter (fun r =>
      !(r.subject_code == toUpperStr code)) })

/-- `increment_subject_access`: bump the per-subject counter, creating it at 1. -/
def increment_subject_access (db : DB) (code : String) : DB :=
  if db.access.any (fun e => e.1 == toUpperStr code) then
    { db with access := db.access.map (fun e =>
        if e.1 == toUpperStr code then (e.1, e.2 + 1) else e) }
  else
    { db with access := db.access ++ [(toUpperStr code, 1)] }

/-- The stored access count of a subject code (0 when untracked). -/
def access_count (db : DB) (code : String) : Nat :=
  ((db.access.find? (fun e => e.1 == toUpperStr code)).map (·.2)).getD 0

/-! ## handlers.py: the lookup flow of `message_handler` -/

/-- Free-tier quota, `FREE_SEARCHES = 4` in handlers.py. -/
def FREE_SEARCHES : Nat := 4

/-- Reason attached to a quota denial: either the copy for a lapsed
subscription or the copy for an exhausted free tier. -/
inductive DenyReason where
  | subscriptionExpired
  | freeSearchesUsed
  deriving DecidableEq, Repr

/-- Observable outcome of one lookup request. -/
inductive LookupOutcome where
  | denied (r : DenyReason)
  | notFound
  | delivered (name : String) (m : ResMap)
  deriving DecidableEq, Repr

def LookupOutcome.isDenied : LookupOutcome → Bool
  | .denied _ => true
  | _ => false

/-- `if not get_user(...): create_user(...)` at the top of the lookup flow. -/
def ensure_user (db : DB) (tid : Int) : DB :=
  if (get_user db tid).isSome then db else (create_user db tid).2

/-- `COUNT(*) FROM pending_payments WHERE telegram_id = ? AND status = 'verified'`
being positive: whether the user ever had a verified payment. -/
def any_verified (db : DB) (tid : Int) : Bool :=
  db.payments.any (fun p => p.telegram_id == tid && p.status == PayStatus.verified)

/-- The subject-code lookup flow of `message_handler`, entered once the
message matched the subject-code pattern (`rawCode` is the matched text):
ensure the user exists, evaluate the gate, and on a delivery bump the
subject access counter and — for unsubscribed users — the search counter. -/
def lookupFlow (db : DB) (now : Nat) (tid : Int) (rawCode : String) :
    LookupOutcome × DB :=
  let code := toUpperStr rawCode
  let db1 := ensure_user db tid
  let sub := check_subscription db1 tid now
  let isSub := sub.1
  let db2 := sub.2
  let searches := get_search_count db2 tid
  if !isSub && decide (FREE_SEARCHES ≤ searches) then
    (.denied (if any_verified db2 tid then .subscriptionExpired else .freeSearchesUsed), db2)
  else
    match get_resources db2 code with
    | none => (.notFound, db2)
    | some (name, m) =>
      if name == "" then (.notFound, db2)
      else
        let db3 := increment_subject_access db2 code
        let db4 := if !isSub then increment_search_count db3 tid else db3
        (.delivered name m, db4)

/-! ## handlers.py: the guided resource-entry conversation -/

def ADD_SUBJECT_CODE : Nat := 0
def ADD_SUBJECT_NAME : Nat := 1
def ADD_UNIT_NUMBER : Nat := 2
def ADD_RESOURCE_TYPE : Nat := 3
def ADD_RESOURCE_LINK : Nat := 4
def ADD_CONFIRMATION : Nat := 5

/-- `^[A-Z]{2,3}\d{3}$`: two or three capital letters then three digits. -/
def isValidSubjectCode (s : String) : Bool :=
  let cs := s.toList
  let isUpperAlpha : Char → Bool := fun c => 'A' ≤ c && c ≤ 'Z'
  (cs.length == 5 && (cs.take 2).all isUpperAlpha && (cs.drop 2).all Char.isDigit) ||
  (cs.length == 6 && (cs.take 3).all isUpperAlpha && (cs.drop 3).all Char.isDigit)

/-- The `context.user_data['add_resource']` dictionary of accumulated fields. -/
structure ResourceData where
  subject_code : Option String := none
  subject_name : Option String := none
  unit_number : Option Int := none
  resource_type : Option String := none
  link : Option String := none
  deriving DecidableEq, Repr

/-- The slice of `context.user_data` the guided conversation owns. -/
structure UserData where
  conversation_state : Option Nat := none
  add_resource : ResourceData := {}
  deriving DecidableEq, Repr

/-- What `process_resource_conversation` sends back (message text itself is
cosmetic; only which prompt fires is modelled). -/
inductive ConvReply where
  | ignored
  | reprompt (state : Nat)
  | ask (state : Nat)
  | committed (ok : Bool)
  | canceled
  deriving DecidableEq, Repr

/-- `process_resource_conversation`: one inbound text while the guided
resource-entry flow is (possibly) active.  Invalid input at a step leaves
both the conversation state and the accumulated data untouched and
re-prompts; valid input stores the field and advances. -/
def process_resource_conversation (db : DB) (isAdmin : Bool) (ud : UserData)
    (rawText : String) : UserData × DB × ConvReply :=
  let text := pyStrip rawText
  if !isAdmin then (ud, db, .ignored)
  else match ud.conversation_state with
  | none => (ud, db, .ignored)
  | some st =>
    let rd := ud.add_resource
    if st == ADD_SUBJECT_CODE then
      let sc := toUpperStr text
      if !isValidSubjectCode sc then (ud, db, .reprompt ADD_SUBJECT_CODE)
      else
        let rd1 := { rd with subject_code := some sc }
        match db.resources.find? (fun r => r.subject_code == sc) with
        | some r =>
          ({ conversation_state := some ADD_UNIT_NUMBER,
             add_resource := { rd1 with subject_name := some r.subject_name } },
           db, .ask ADD_UNIT_NUMBER)
        | none =>
          ({ conversation_state := some ADD_SUBJECT_NAME, add_resource := rd1 },
           db, .ask ADD_SUBJECT_NAME)
    else if st == ADD_SUBJECT_NAME then
      if text.length < 3 || 100 < text.length then (ud, db, .reprompt ADD_SUBJECT_NAME)
      else
        ({ conversation_state := some ADD_UNIT_NUMBER,
           add_resource := { rd with subject_name := some text } },
         db, .ask ADD_UNIT_NUMBER)
    else if st == ADD_UNIT_NUMBER then
      match parseIntPy text with
      | none => (ud, db, .reprompt ADD_UNIT_NUMBER)
      | some n =>
        if n < 1 || 6 < n then (ud, db, .reprompt ADD_UNIT_NUMBER)
        else
          ({ conversation_state := some ADD_RESOURCE_TYPE,
             add_resource := { rd with unit_number := some n } },
           db, .ask ADD_RESOURCE_TYPE)
    else if st == ADD_RESOURCE_TYPE then
      let rt := toLowerStr text
      if !(rt == "notes" || rt == "ppt" || rt == "pyq") then
        (ud, db, .reprompt ADD_RESOURCE_TYPE)
      else
        ({ conversation_state := some ADD_RESOURCE_LINK,
           add_resource := { rd with resource_type := some rt } },
         db, .ask ADD_RESOURCE_LINK)
    else if st == ADD_RESOURCE_LINK then
      if !startsWithPy text "http" then (ud, db, .reprompt ADD_RESOURCE_LINK)
      else
        ({ conversation_state := some ADD_CONFIRMATION,
           add_resource := { rd with link := some text } },
         db, .ask ADD_CONFIRMATION)
    else if st == ADD_CONFIRMATION then
      let c := toLowerStr text
      if pyContains "confirm" c || pyContains "✅" c then
        let rt := rd.resource_type.getD ""
        let lk := rd.link
        let res := add_resource db (rd.subject_code.getD "") (rd.subject_name.getD "")
          (rd.unit_number.getD 0)
          (if rt == "notes" then lk else none)
          (if rt == "ppt" then lk else none)
          (if rt == "pyq" then lk else none)
        ({}, res.2, .committed res.1)
      else ({}, db, .canceled)
    else (ud, db, .ignored)

/-! ## handlers.py: bulk JSON import (`process_json_upload`) -/

/-- One parsed JSON object; a field is `none` when the key is missing, and a
present-but-non-numeric `unit` value is `some none`. -/
structure JsonResource where
  subject_code : Option String := none
  subject_name : Option String := none
  unit : Option (Option Int) := none
  type : Option String := none
  link : Option String := none
  deriving DecidableEq, Repr

/-- The validation failure kinds of the bulk-import loop, in check order. -/
inductive BulkErrKind where
  | missingFields
  | badUnitRange
  | badUnitParse
  | badType
  | badLink
  deriving DecidableEq, Repr

/-- Per-item validation of the bulk-import loop: the checks in source order,
yielding the normalized (code, name, unit, type, link) on success. -/
def itemCheck (it : JsonResource) : Except BulkErrKind (String × String × Int × String × String) :=
  match it.subject_code, it.subject_name, it.unit, it.type, it.link with
  | some sc, some sn, some uf, some ty, some lk =>
    match uf with
    | none => .error .badUnitParse
    | some u =>
      if u < 1 || 6 < u then .error .badUnitRange
      else
        let rt := toLowerStr ty
        if !(rt == "notes" || rt == "ppt" || rt == "pyq") then .error .badType
        else if !startsWithPy lk "http" then .error .badLink
        else .ok (toUpperStr sc, sn, u, rt, lk)
  | _, _, _, _, _ => .error .missingFields

/-- Commit one validated bulk item through `add_resource`. -/
def commitItem (db : DB) (p : String × String × Int × String × String) : DB :=
  (add_resource db p.1 p.2.1 p.2.2.1
    (if p.2.2.2.1 == "notes" then some p.2.2.2.2 else none)
    (if p.2.2.2.1 == "ppt" then some p.2.2.2.2 else none)
    (if p.2.2.2.1 == "pyq" then some p.2.2.2.2 else none)).2

/-- Running tallies of the bulk-import loop. -/
structure BulkAcc where
  successful : Nat := 0
  failed : Nat := 0
  subjects : List String := []
  errors : List (Nat × BulkErrKind) := []
  deriving DecidableEq, Repr

/-- `set.add` on the list modelling `subjects_added`. -/
def insertSet (l : List String) (s : String) : List String :=
  if l.contains s then l else l ++ [s]

/-- The item loop of `process_json_upload`: each entry is validated and
committed independently; a failure records a per-item error tagged with the
1-based position and moves on. -/
def bulkLoop (db : DB) (acc : BulkAcc) (i : Nat) :
    List JsonResource → BulkAcc × DB
  | [] => (acc, db)
  | it :: rest =>
    match itemCheck it with
    | .error k =>
      bulkLoop db { acc with failed := acc.failed + 1,
                             errors := acc.errors ++ [(i + 1, k)] } (i + 1) rest
    | .ok p =>
      bulkLoop (commitItem db p)
        { acc with successful := acc.successful + 1,
                   subjects := insertSet acc.subjects p.1 } (i + 1) rest

/-- `process_json_upload` on an already-parsed JSON list. -/
def process_json_upload (db : DB) (items : List JsonResource) : BulkAcc × DB :=
  bulkLoop db {} 0 items

/-! ## General lemmas -/

/-- A store with one pending payment (reference "R1" by user 5) and that
user's row, used to exercise `verify_payment`. -/
def c3base : DB :=
  { DB.empty with users := [⟨5, 0, false, none⟩], payments := [⟨5, "R1", 0, .pending⟩] }

/-- A store with a lapsed subscriber (count 9, one verified payment), used
to exercise the denial-reason branch of the lookup flow. -/
def c9base : DB :=
  { DB.empty with users := [⟨7, 9, false, none⟩], payments := [⟨7, "R1", 0, .verified⟩] }

/-- A catalog with one CSE211 row (unit 1, only a notes link) and a fresh
user, delivering a successful lookup. -/
def c2deliver : DB where
  users := [⟨7, 0, false, none⟩]
  resources := [⟨1, "CSE211", "DS", 1, some "http://n", none, none⟩]
  payments := []
  access := []
  nextRid := 2

/-- The same catalog with the user's quota exhausted, denying the lookup. -/
def c2denied : DB where
  users := [⟨7, 4, false, none⟩]
  resources := [⟨1, "CSE211", "DS", 1, some "http://n", none, none⟩]
  payments := []
  access := []
  nextRid := 2

/-- The validation of `process_resource_conversation` at each input step:
`true` when the (stripped) text is rejected at that step. -/
def invalidInput (st : Nat) (text : String) : Bool :=
  if st == ADD_SUBJECT_CODE then !isValidSubjectCode (toUpperStr text)
  else if st == ADD_SUBJECT_NAME then decide (text.length < 3) || decide (100 < text.length)
  else if st == ADD_UNIT_NUMBER then
    match parseIntPy text with
    | none => true
    | some n => decide (n < 1) || decide (6 < n)
  else if st == ADD_RESOURCE_TYPE then
    !(toLowerStr text == "notes" || toLowerStr text == "ppt" || toLowerStr text == "pyq")
  else if st == ADD_RESOURCE_LINK then !startsWithPy text "http"
  else false

/-- Iterating the conversation handler over a list of inbound texts,
threading user data and database. -/
def convIterate (p : UserData × DB) (texts : List String) : UserData × DB :=
  texts.foldl (fun q t =>
    ((process_resource_conversation q.2 true q.1 t).1,
     (process_resource_conversation q.2 true q.1 t).2.1)) p

/-- Whether a bulk-import entry passes all per-item validation. -/
def itemOk (it : JsonResource) : Bool :=
  match itemCheck it with
  | .ok _ => true
  | .error _ => false

/-- The per-item error records produced from position `i` onwards. -/
def bulkErrsFrom (i : Nat) : List JsonResource → List (Nat × BulkErrKind)
  | [] => []
  | it :: rest =>
    match itemCheck it with
    | .error k => (i + 1, k) :: bulkErrsFrom (i + 1) rest
    | .ok _ => bulkErrsFrom (i + 1) rest

/-- The 3-item bulk-import list of the claim: items 1 and 3 are valid, item
2 lacks the `link` key. -/
def c7items : List JsonResource :=
  [⟨some "cse211", some "Data Structures", some (some 1), some "notes", some "https://a"⟩,
   ⟨some "cse211", some "Data Structures", some (some 1), some "ppt", none⟩,
   ⟨some "cse211", some "Data Structures", some (some 2), some "ppt", some "https://b"⟩]

/-- Well-formedness guaranteed by the schema and the upsert discipline: row
ids are distinct, at most one row exists per (subject code, unit), and all
row ids are below the AUTOINCREMENT counter. -/
def resourcesWF (db : DB) : Prop :=
  db.resources.Pairwise (fun r s => ¬(r.rid = s.rid)) ∧
  db.resources.Pairwise (fun r s =>
    ¬(r.subject_code = s.subject_code ∧ r.unit_number = s.unit_number)) ∧
  ∀ r ∈ db.resources, r.rid < db.nextRid

/-- The no-empty-row invariant: no stored row has all three links NULL. -/
def noEmptyRow (db : DB) : Prop :=
  ∀ r ∈ db.resources, ¬(r.notes_link = none ∧ r.ppt_link = none ∧ r.pyq_link = none)

/-- The row's `rtype` link is its only remaining (non-NULL) one. -/
def lastFieldHyp (r : ResourceRow) (rtype : String) : Prop :=
  (rtype = "notes" ∧ truthy r.notes_link = true ∧ r.ppt_link = none ∧ r.pyq_link = none) ∨
  (rtype = "ppt" ∧ truthy r.ppt_link = true ∧ r.notes_link = none ∧ r.pyq_link = none) ∨
  (rtype = "pyq" ∧ truthy r.pyq_link = true ∧ r.notes_link = none ∧ r.ppt_link = none)

def c5db : DB where
  users := []
  resources := [⟨1, "CSE211", "DS", 1, some "http://n", none, none⟩]
  payments := []
  access := []
  nextRid := 2

def c6db : DB where
  users := []
  resources := [⟨1, "PHY102", "Physics", 3, some "http://x", some "http://y",
    some "http://z"⟩]
  payments := []
  access := []
  nextRid := 2

theorem toNat_ofNat_valid (m : Nat) (h : m < 55296) : (Char.ofNat m).toNat = m := by
  unfold Char.ofNat
  rw [dif_pos (Or.inl h)]
  rfl

theorem char_toUpper_idem (c : Char) : c.toUpper.toUpper = c.toUpper := by
  unfold Char.toUpper
  by_cases h : 97 ≤ c.toNat ∧ c.toNat ≤ 122
  · rw [if_pos h]
    have hv : (Char.ofNat (c.toNat - 32)).toNat = c.toNat - 32 :=
      toNat_ofNat_valid _ (by omega)
    rw [if_neg (fun h2 => by omega)]
  · rw [if_neg h, if_neg h]

theorem toUpperStr_idem (s : String) : toUpperStr (toUpperStr s) = toUpperStr s := by
  unfold toUpperStr
  rw [show (⟨s.data.map Char.toUpper⟩ : String).data = s.data.map Char.toUpper from rfl]
  rw [List.map_map]
  exact congrArg String.mk (List.map_congr_left (fun a _ => char_toUpper_idem a))

/-- A `find?` over an in-place conditional update locates the updated image
of the element `find?` located before, provided the update preserves the
search predicate. -/
theorem find?_map_ite {α : Type _} (l : List α) (k : α → Bool) (g : α → α)
    (hg : ∀ a, k a = true → k (g a) = true) :
    (l.map fun a => if k a then g a else a).find? k = (l.find? k).map g := by
  rw [List.find?_map]
  have hk : (k ∘ fun a => if k a then g a else a) = k := by
    funext a
    cases ha : k a with
    | true => simp [Function.comp, ha, hg a ha]
    | false => simp [Function.comp, ha]
  rw [hk]
  cases hf : l.find? k with
  | none => rfl
  | some u => simp [List.find?_some hf]

/-- When at most one element of a list can satisfy the predicate, `find?`
returns exactly the member that does. -/
theorem find?_eq_of_pairwise {α : Type _} (l : List α) (p : α → Bool) (r : α)
    (hp : l.Pairwise (fun a b => p a = true → p b = true → False))
    (hr : r ∈ l) (hpr : p r = true) : l.find? p = some r := by
  induction l with
  | nil => cases hr
  | cons a t ih =>
    rcases List.pairwise_cons.mp hp with ⟨ha, ht⟩
    rcases List.mem_cons.mp hr with rfl | hmem
    · exact List.find?_cons_of_pos t hpr
    · have hpa : ¬ p a = true := fun h => ha r hmem h hpr
      rw [List.find?_cons_of_neg t hpa]
      exact ih ht hmem

/-! ## Structural lemmas about the embedded database operations -/

theorem ensure_user_resources (db : DB) (tid : Int) :
    (ensure_user db tid).resources = db.resources := by
  unfold ensure_user create_user
  split
  · rfl
  · split <;> rfl

theorem ensure_user_payments (db : DB) (tid : Int) :
    (ensure_user db tid).payments = db.payments := by
  unfold ensure_user create_user
  split
  · rfl
  · split <;> rfl

theorem ensure_user_access (db : DB) (tid : Int) :
    (ensure_user db tid).access = db.access := by
  unfold ensure_user create_user
  split
  · rfl
  · split <;> rfl

theorem users_find?_eq_none (db : DB) (tid : Int)
    (h : ¬(get_user db tid).isSome = true) :
    db.users.find? (fun u => u.telegram_id == tid) = none := by
  rcases hfind : db.users.find? (fun u => u.telegram_id == tid) with _ | u
  · exact hfind
  · exact absurd (by simp [get_user, hfind]) h

theorem users_any_eq_false (db : DB) (tid : Int)
    (h : db.users.find? (fun u => u.telegram_id == tid) = none) :
    db.users.any (fun u => u.telegram_id == tid) = false := by
  rw [List.any_eq_false]
  intro u hu
  exact List.find?_eq_none.mp h u hu

theorem get_user_ensure_isSome (db : DB) (tid : Int) :
    (get_user (ensure_user db tid) tid).isSome = true := by
  unfold ensure_user
  split
  · assumption
  · next h =>
    have hnone := users_find?_eq_none db tid h
    unfold create_user
    rw [users_any_eq_false db tid hnone]
    simp [get_user, List.find?_append, hnone]

theorem get_search_count_ensure (db : DB) (tid : Int) :
    get_search_count (ensure_user db tid) tid = get_search_count db tid := by
  unfold ensure_user
  split
  · rfl
  · next h =>
    have hnone := users_find?_eq_none db tid h
    unfold create_user
    rw [users_any_eq_false db tid hnone]
    simp [get_search_count, List.find?_append, hnone]

/-- `check_subscription` returns the database either untouched or with
exactly the lazy-expiration clearing applied to the user's row. -/
theorem check_subscription_cases (db : DB) (tid : Int) (now : Nat) :
    (check_subscription db tid now).2 = db ∨
    (check_subscription db tid now).2 = { db with users := db.users.map (fun v =>
      if v.telegram_id == tid then { v with is_paid := false, expiry_date := none }
      else v) } := by
  unfold check_subscription
  split
  · exact Or.inl rfl
  · split
    · exact Or.inl rfl
    · split
      · exact Or.inl rfl
      · split
        · exact Or.inr rfl
        · exact Or.inl rfl

theorem check_subscription_resources (db : DB) (tid : Int) (now : Nat) :
    ((check_subscription db tid now).2).resources = db.resources := by
  rcases check_subscription_cases db tid now with h | h <;> rw [h]

theorem check_subscription_payments (db : DB) (tid : Int) (now : Nat) :
    ((check_subscription db tid now).2).payments = db.payments := by
  rcases check_subscription_cases db tid now with h | h <;> rw [h]

theorem check_subscription_access (db : DB) (tid : Int) (now : Nat) :
    ((check_subscription db tid now).2).access = db.access := by
  rcases check_subscription_cases db tid now with h | h <;> rw [h]

theorem get_search_count_check_subscription (db : DB) (tid : Int) (now : Nat) :
    get_search_count (check_subscription db tid now).2 tid = get_search_count db tid := by
  rcases check_subscription_cases db tid now with h | h <;> rw [h]
  · unfold get_search_count
    rw [show ({ db with users := db.users.map (fun v =>
        if v.telegram_id == tid then { v with is_paid := false, expiry_date := none }
        else v) } : DB).users = db.users.map (fun v =>
        if v.telegram_id == tid then { v with is_paid := false, expiry_date := none }
        else v) from rfl]
    rw [find?_map_ite db.users (fun v => v.telegram_id == tid)
      (fun v => { v with is_paid := false, expiry_date := none }) (fun a ha => ha)]
    cases db.users.find? (fun v => v.telegram_id == tid) <;> rfl

theorem get_user_check_subscription_isSome (db : DB) (tid : Int) (now : Nat) :
    (get_user (check_subscription db tid now).2 tid).isSome = (get_user db tid).isSome := by
  rcases check_subscription_cases db tid now with h | h <;> rw [h]
  · unfold get_user
    rw [show ({ db with users := db.users.map (fun v =>
        if v.telegram_id == tid then { v with is_paid := false, expiry_date := none }
        else v) } : DB).users = db.users.map (fun v =>
        if v.telegram_id == tid then { v with is_paid := false, expiry_date := none }
        else v) from rfl]
    rw [find?_map_ite db.users (fun v => v.telegram_id == tid)
      (fun v => { v with is_paid := false, expiry_date := none }) (fun a ha => ha)]
    cases db.users.find? (fun v => v.telegram_id == tid) <;> rfl

theorem check_subscription_fst_ensure (db : DB) (tid : Int) (now : Nat) :
    (check_subscription (ensure_user db tid) tid now).1 =
      (check_subscription db tid now).1 := by
  unfold ensure_user
  split
  · rfl
  · next h =>
    have hnone := users_find?_eq_none db tid h
    unfold create_user check_subscription
    rw [users_any_eq_false db tid hnone]
    simp [List.find?_append, hnone]

theorem increment_search_count_resources (db : DB) (tid : Int) :
    (increment_search_count db tid).resources = db.resources := rfl

theorem increment_search_count_access (db : DB) (tid : Int) :
    (increment_search_count db tid).access = db.access := rfl

theorem increment_subject_access_users (db : DB) (code : String) :
    (increment_subject_access db code).users = db.users := by
  unfold increment_subject_access
  split <;> rfl

theorem increment_subject_access_resources (db : DB) (code : String) :
    (increment_subject_access db code).resources = db.resources := by
  unfold increment_subject_access
  split <;> rfl

theorem get_search_count_congr (db db' : DB) (tid : Int) (h : db.users = db'.users) :
    get_search_count db tid = get_search_count db' tid := by
  unfold get_search_count
  rw [h]

theorem access_count_congr (db db' : DB) (code : String) (h : db.access = db'.access) :
    access_count db code = access_count db' code := by
  unfold access_count
  rw [h]

theorem get_search_count_increment (db : DB) (tid : Int)
    (h : (get_user db tid).isSome = true) :
    get_search_count (increment_search_count db tid) tid = get_search_count db tid + 1 := by
  unfold get_search_count increment_search_count
  rw [show ({ db with users := db.users.map (fun u =>
      if u.telegram_id == tid then { u with search_count := u.search_count + 1 }
      else u) } : DB).users = db.users.map (fun u =>
      if u.telegram_id == tid then { u with search_count := u.search_count + 1 }
      else u) from rfl]
  rw [find?_map_ite db.users (fun u => u.telegram_id == tid)
    (fun u => { u with search_count := u.search_count + 1 }) (fun a ha => ha)]
  rcases hfind : db.users.find? (fun u => u.telegram_id == tid) with _ | u
  · simp [get_user, hfind] at h
  · rw [hfind]
    rfl

theorem access_count_increment (db : DB) (code : String) :
    access_count (increment_subject_access db code) code = access_count db code + 1 := by
  unfold access_count increment_subject_access
  rcases hany : db.access.any (fun e => e.1 == toUpperStr code) with _ | _
  · rw [if_neg (by simp [hany])]
    have hnone : db.access.find? (fun e => e.1 == toUpperStr code) = none := by
      rw [List.find?_eq_none]
      intro e he
      exact List.any_eq_false.mp hany e he
    simp [List.find?_append, hnone]
  · rw [if_pos (by simp [hany])]
    rw [show ({ db with access := db.access.map (fun e =>
        if e.1 == toUpperStr code then (e.1, e.2 + 1) else e) } : DB).access =
        db.access.map (fun e =>
        if e.1 == toUpperStr code then (e.1, e.2 + 1) else e) from rfl]
    rw [find?_map_ite db.access (fun e => e.1 == toUpperStr code)
      (fun e => (e.1, e.2 + 1)) (fun a ha => ha)]
    rcases List.any_eq_true.mp hany with ⟨e, he, hpe⟩
    rcases hfind : db.access.find? (fun e => e.1 == toUpperStr code) with _ | u
    · exact absurd (List.find?_eq_none.mp hfind e he) (by simp [hpe])
    · rw [hfind]
      rfl

/-! ## Claim C10 -/

/-- C10: reference ids are globally unique across all payment requests —
whenever any stored payment (for any user, in any status) already carries
the reference id, a new `add_pending_payment` with that id returns the
failure signal and leaves the database unchanged. -/
theorem duplicateReferenceIdRejected (db : DB) (tid : Int) (ref : String) (now : Nat)
    (h : ∃ p ∈ db.payments, p.reference_id = ref) :
    add_pending_payment db tid ref now = (false, db) := by
  obtain ⟨p, hp, hr⟩ := h
  have hany : db.payments.any (fun p => p.reference_id == ref) = true :=
    List.any_eq_true.mpr ⟨p, hp, by simp [hr]⟩
  unfold add_pending_payment
  rw [if_pos (by simp [hany])]

/-- Witness for C10 at a concrete store holding reference "R1" for user 5:
a submission of "R1" by user 6 is rejected without a write. -/
theorem duplicateReferenceIdRejected_witness :
    (∃ p ∈ ({ DB.empty with payments := [⟨5, "R1", 0, .pending⟩] } : DB).payments,
        p.reference_id = "R1") ∧
    add_pending_payment { DB.empty with payments := [⟨5, "R1", 0, .pending⟩] } 6 "R1" 3 =
      (false, { DB.empty with payments := [⟨5, "R1", 0, .pending⟩] }) := by
  refine ⟨⟨⟨5, "R1", 0, .pending⟩, by simp, rfl⟩, ?_⟩
  exact duplicateReferenceIdRejected _ 6 "R1" 3 ⟨⟨5, "R1", 0, .pending⟩, by simp, rfl⟩

/-! ## Claim C4 -/

/-- C4 counterexample: `get_subscription_expiry` is a read of subscription
status (cited by the claim) that, on a user whose expiry lies in the past,
reports not-subscribed (`none`) yet leaves the store byte-for-byte unchanged
— the subscription flag is still set afterwards, so the claimed "any read
atomically clears the flag and expiry" is false. -/
theorem expiryReadNoClear_counterexample :
    (get_subscription_expiry { DB.empty with users := [⟨7, 0, true, some 10⟩] } 7 20).1 =
      none ∧
    (get_subscription_expiry { DB.empty with users := [⟨7, 0, true, some 10⟩] } 7 20).2 =
      { DB.empty with users := [⟨7, 0, true, some 10⟩] } ∧
    ((get_subscription_expiry { DB.empty with users := [⟨7, 0, true, some 10⟩] } 7 20).2.users.map
      (·.is_paid)) = [true] := by
  decide

/-- C4 (amended): for a user whose expiry is in the past,
`check_subscription` reports not subscribed and clears both flag and expiry,
and repeating it is idempotent; `get_subscription_expiry` also reports
not subscribed (both before and after the clearing) but leaves the store
unchanged rather than clearing it. -/
theorem expiredSubscriptionLazyClear (db : DB) (tid : Int) (now : Nat) (u : UserRec)
    (hu : db.users.find? (fun v => v.telegram_id == tid) = some u)
    (hp : u.is_paid = true) (e : Nat) (he : u.expiry_date = some e) (hlt : e < now) :
    (check_subscription db tid now).1 = false ∧
    (check_subscription db tid now).2.users.find? (fun v => v.telegram_id == tid) =
      some { u with is_paid := false, expiry_date := none } ∧
    check_subscription (check_subscription db tid now).2 tid now =
      (false, (check_subscription db tid now).2) ∧
    get_subscription_expiry db tid now = (none, db) ∧
    get_subscription_expiry (check_subscription db tid now).2 tid now =
      (none, (check_subscription db tid now).2) := by
  have hcs : check_subscription db tid now =
      (false, { db with users := db.users.map (fun v =>
        if v.telegram_id == tid then { v with is_paid := false, expiry_date := none }
        else v) }) := by
    unfold check_subscription
    rw [hu]
    simp [hp, he, hlt]
  have hfind' : ({ db with users := db.users.map (fun v =>
      if v.telegram_id == tid then { v with is_paid := false, expiry_date := none }
      else v) } : DB).users.find? (fun v => v.telegram_id == tid) =
      some { u with is_paid := false, expiry_date := none } := by
    rw [show ({ db with users := db.users.map (fun v =>
      if v.telegram_id == tid then { v with is_paid := false, expiry_date := none }
      else v) } : DB).users = db.users.map (fun v =>
      if v.telegram_id == tid then { v with is_paid := false, expiry_date := none }
      else v) from rfl]
    rw [find?_map_ite db.users (fun v => v.telegram_id == tid)
      (fun v => { v with is_paid := false, expiry_date := none }) (fun a ha => ha), hu]
    rfl
  refine ⟨by rw [hcs], by rw [hcs]; exact hfind', ?_, ?_, ?_⟩
  · rw [hcs]
    unfold check_subscription
    rw [hfind']
    simp
  · unfold get_subscription_expiry
    rw [hu]
    simp [hp, he, hlt]
  · rw [hcs]
    unfold get_subscription_expiry
    rw [hfind']
    simp

/-- Witness for C4's amended statement on a concrete expired user. -/
theorem expiredSubscriptionLazyClear_witness :
    ({ DB.empty with users := [⟨7, 3, true, some 10⟩] } : DB).users.find?
      (fun v => v.telegram_id == 7) = some ⟨7, 3, true, some 10⟩ ∧
    (check_subscription { DB.empty with users := [⟨7, 3, true, some 10⟩] } 7 20).1 = false ∧
    get_subscription_expiry { DB.empty with users := [⟨7, 3, true, some 10⟩] } 7 20 =
      (none, { DB.empty with users := [⟨7, 3, true, some 10⟩] }) := by
  have h := expiredSubscriptionLazyClear { DB.empty with users := [⟨7, 3, true, some 10⟩] }
    7 20 ⟨7, 3, true, some 10⟩ (by decide) (by decide) 10 (by decide) (by decide)
  exact ⟨by decide, h.1, h.2.2.2.1⟩

/-! ## Claim C3 -/

/-- C3 counterexample: after a first successful approve of "R1" the request
is in `verified` status, yet a second approve *with the requester id
supplied* (the scoped variant of `verify_payment`, which filters only on
reference id and requester, never on status) succeeds again — it returns the
requester id instead of a failure signal and mutates user state — so
"approve is effective exactly once ... a second approve returns a failure
signal and mutates no user or payment state" is false as stated. -/
theorem approveScopedSecondTime_counterexample :
    ((verify_payment c3base "R1" none 100).2.payments.map (·.status) = [.verified]) ∧
    (verify_payment (verify_payment c3base "R1" none 100).2 "R1" (some 5) 200).1 =
      some 5 ∧
    (verify_payment (verify_payment c3base "R1" none 100).2 "R1" (some 5) 200).2 ≠
      (verify_payment c3base "R1" none 100).2 := by
  decide

/-- Unfolding equation of `verify_payment` for the unconstrained call. -/
theorem verify_payment_none_eq (db : DB) (ref : String) (now : Nat) :
    verify_payment db ref none now =
      match db.payments.find?
          (fun p => p.reference_id == ref && p.status == PayStatus.pending) with
      | none => (none, db)
      | some p => (some p.telegram_id, { db with
          payments := db.payments.map (fun q =>
            if q.reference_id == ref then { q with status := PayStatus.verified } else q),
          users := db.users.map (fun v =>
            if v.telegram_id == p.telegram_id then
              { v with is_paid := true, expiry_date := some (now + 604800) } else v) }) :=
  rfl

/-- C3 (amended): the *unconstrained* approve (`verify_payment ref none`, the
admin `/verify` path) is effective exactly once — it fails with no state
change unless some pending payment carries the reference id; on success it
returns that payment's requester id, moves every payment with the reference
id to `verified`, rewrites the requester's user row (when present) to
subscribed with expiry now + 7 days, and a repeated unconstrained approve of
the same reference id then fails with no state change.  (The requester-scoped
variant does not check status and can re-approve, per the counterexample.) -/
theorem approveEffectiveOnceAmended (db : DB) (ref : String) (now now' : Nat) :
    ((∀ p ∈ db.payments, ¬(p.reference_id = ref ∧ p.status = PayStatus.pending)) →
      verify_payment db ref none now = (none, db)) ∧
    (∀ t db', verify_payment db ref none now = (some t, db') →
      (∃ p ∈ db.payments, p.reference_id = ref ∧ p.status = PayStatus.pending ∧
        p.telegram_id = t) ∧
      (∀ q ∈ db'.payments, q.reference_id = ref → q.status = PayStatus.verified) ∧
      db'.users.find? (fun v => v.telegram_id == t) =
        (db.users.find? (fun v => v.telegram_id == t)).map
          (fun v => { v with is_paid := true, expiry_date := some (now + 604800) }) ∧
      verify_payment db' ref none now' = (none, db')) := by
  constructor
  · intro hno
    have hfnone : db.payments.find?
        (fun p => p.reference_id == ref && p.status == PayStatus.pending) = none := by
      rw [List.find?_eq_none]
      intro p hp
      intro hpred
      rw [Bool.and_eq_true] at hpred
      exact hno p hp ⟨by simpa using hpred.1, by simpa using hpred.2⟩
    rw [verify_payment_none_eq, hfnone]
  · intro t db' heq
    rw [verify_payment_none_eq] at heq
    rcases hf : db.payments.find?
        (fun p => p.reference_id == ref && p.status == PayStatus.pending) with _ | p
    · rw [hf] at heq
      cases heq
    · rw [hf] at heq
      injection heq with hfst hsnd
      have hpt : p.telegram_id = t := by injection hfst
      have hdb' : db' = { db with
          payments := db.payments.map (fun q =>
            if q.reference_id == ref then { q with status := PayStatus.verified } else q),
          users := db.users.map (fun v =>
            if v.telegram_id == p.telegram_id then
              { v with is_paid := true, expiry_date := some (now + 604800) } else v) } :=
        hsnd.symm
      have hpred := List.find?_some hf
      rw [Bool.and_eq_true] at hpred
      obtain ⟨h1, h2⟩ := hpred
      refine ⟨⟨p, List.mem_of_find?_eq_some hf, by simpa using h1, by simpa using h2, hpt⟩,
        ?_, ?_, ?_⟩
      · intro q hq hqref
        rw [hdb'] at hq
        rcases List.mem_map.mp hq with ⟨q0, hq0, hq0eq⟩
        by_cases hc : q0.reference_id == ref
        · rw [if_pos hc] at hq0eq
          rw [← hq0eq]
        · rw [if_neg hc] at hq0eq
          rw [← hq0eq] at hqref
          exact absurd (by simp [hqref]) hc
      · rw [hdb', hpt]
        rw [show ({ db with
          payments := db.payments.map (fun q =>
            if q.reference_id == ref then { q with status := PayStatus.verified } else q),
          users := db.users.map (fun v =>
            if v.telegram_id == t then
              { v with is_paid := true, expiry_date := some (now + 604800) } else v) } : DB).users
          = db.users.map (fun v =>
            if v.telegram_id == t then
              { v with is_paid := true, expiry_date := some (now + 604800) } else v) from rfl]
        exact find?_map_ite db.users (fun v => v.telegram_id == t)
          (fun v => { v with is_paid := true, expiry_date := some (now + 604800) })
          (fun a ha => ha)
      · have hfnone' : db'.payments.find?
            (fun q => q.reference_id == ref && q.status == PayStatus.pending) = none := by
          rw [List.find?_eq_none]
          intro q hq hqpred
          rw [Bool.and_eq_true] at hqpred
          obtain ⟨hq1, hq2⟩ := hqpred
          rw [hdb'] at hq
          rcases List.mem_map.mp hq with ⟨q0, hq0, hq0eq⟩
          by_cases hc : q0.reference_id == ref
          · rw [if_pos hc] at hq0eq
            rw [← hq0eq] at hq2
            simp at hq2
          · rw [if_neg hc] at hq0eq
            rw [hq0eq] at hc
            exact hc (by simpa using hq1)
        rw [verify_payment_none_eq, hfnone']

/-- Witness for C3's amended statement: a nonexistent reference fails with no
change, and after a concrete successful approve the repeated unconstrained
approve fails with no change. -/
theorem approveEffectiveOnceAmended_witness :
    verify_payment { DB.empty with payments := [⟨9, "RX", 0, .verified⟩] } "RX" none 5 =
      (none, { DB.empty with payments := [⟨9, "RX", 0, .verified⟩] }) ∧
    verify_payment (verify_payment c3base "R1" none 100).2 "R1" none 200 =
      (none, (verify_payment c3base "R1" none 100).2) := by
  constructor
  · exact (approveEffectiveOnceAmended
      { DB.empty with payments := [⟨9, "RX", 0, .verified⟩] } "RX" 5 5).1 (by decide)
  · exact ((approveEffectiveOnceAmended c3base "R1" 100 200).2 5
      (verify_payment c3base "R1" none 100).2 (by decide)).2.2.2

/-! ## Claims C1 and C9: the access gate -/

theorem get_search_count_cs_ensure (db : DB) (tid : Int) (now : Nat) :
    get_search_count (check_subscription (ensure_user db tid) tid now).2 tid =
      get_search_count db tid := by
  rw [get_search_count_check_subscription, get_search_count_ensure]

theorem any_verified_cs_ensure (db : DB) (tid : Int) (now : Nat) :
    any_verified (check_subscription (ensure_user db tid) tid now).2 tid =
      any_verified db tid := by
  unfold any_verified
  rw [check_subscription_payments, ensure_user_payments]

/-- The allow/deny decision of the lookup flow is a function of the user's
subscription state and stored search count alone. -/
theorem isDenied_lookupFlow (db : DB) (now : Nat) (tid : Int) (code : String) :
    (lookupFlow db now tid code).1.isDenied =
      (!(check_subscription db tid now).1 &&
        decide (FREE_SEARCHES ≤ get_search_count db tid)) := by
  have h1 := check_subscription_fst_ensure db tid now
  have h2 := get_search_count_cs_ensure db tid now
  simp only [lookupFlow, h1, h2]
  split
  · next h => rw [LookupOutcome.isDenied, h]
  · next h =>
    rw [Bool.not_eq_true] at h
    rw [h]
    rcases hres : get_resources (check_subscription (ensure_user db tid) tid now).2
        (toUpperStr code) with _ | ⟨name, m⟩
    · rfl
    · split <;> first | rfl | (split <;> rfl)

theorem lookupFlow_denied_state (db : DB) (now : Nat) (tid : Int) (code : String)
    (r : DenyReason) (h : (lookupFlow db now tid code).1 = .denied r) :
    (lookupFlow db now tid code).2 =
      (check_subscription (ensure_user db tid) tid now).2 := by
  simp only [lookupFlow] at h ⊢
  split at h
  · split <;> rfl
  · next hc =>
    rw [if_neg hc]
    exfalso
    rcases hres : get_resources (check_subscription (ensure_user db tid) tid now).2
        (toUpperStr code) with _ | ⟨name, m⟩
    · rw [hres] at h
      simp at h
    · rw [hres] at h
      by_cases hname : name = ""
      · simp [hname] at h
      · simp [hname] at h

/-- C1: a lookup by an actively subscribed user is never denied; for a user
who is not actively subscribed, the lookup is denied exactly when the
free-search count has reached the quota constant `FREE_SEARCHES = 4`
(equivalently, allowed exactly when the count is below 4). -/
theorem lookupGateQuota (db : DB) (now : Nat) (tid : Int) (code : String) :
    ((check_subscription db tid now).1 = true →
      (lookupFlow db now tid code).1.isDenied = false) ∧
    ((check_subscription db tid now).1 = false →
      ((lookupFlow db now tid code).1.isDenied = true ↔
        FREE_SEARCHES ≤ get_search_count db tid)) := by
  have hf := isDenied_lookupFlow db now tid code
  constructor
  · intro hs
    rw [hf, hs]
    rfl
  · intro hs
    rw [hf, hs]
    simp

/-- Witness for C1: a subscribed user with count 9 is allowed; an
unsubscribed user with count exactly 4 is denied. -/
theorem lookupGateQuota_witness :
    (check_subscription { DB.empty with users := [⟨7, 9, true, some 200⟩] } 7 100).1 =
      true ∧
    (lookupFlow { DB.empty with users := [⟨7, 9, true, some 200⟩] } 100 7 "CSE211").1.isDenied =
      false ∧
    (check_subscription { DB.empty with users := [⟨7, 4, false, none⟩] } 7 100).1 = false ∧
    (lookupFlow { DB.empty with users := [⟨7, 4, false, none⟩] } 100 7 "CSE211").1.isDenied =
      true := by
  refine ⟨by decide,
    (lookupGateQuota { DB.empty with users := [⟨7, 9, true, some 200⟩] } 100 7 "CSE211").1
      (by decide),
    by decide, ?_⟩
  exact ((lookupGateQuota { DB.empty with users := [⟨7, 4, false, none⟩] } 100 7 "CSE211").2
    (by decide)).mpr (by decide)

/-- C9: when a lookup is denied, the "subscription lapsed" copy is chosen
exactly when some payment request of the user has verified status, and the
"quota exhausted" copy otherwise; swapping out the entire payments table can
never change the allow/deny decision itself. -/
theorem denialReasonOnlyAffectsMessage (db : DB) (now : Nat) (tid : Int) (code : String) :
    (∀ r, (lookupFlow db now tid code).1 = .denied r →
      (r = DenyReason.subscriptionExpired ↔ any_verified db tid = true)) ∧
    (∀ ps, (lookupFlow { db with payments := ps } now tid code).1.isDenied =
      (lookupFlow db now tid code).1.isDenied) := by
  constructor
  · intro r hr
    have hv := any_verified_cs_ensure db tid now
    simp only [lookupFlow] at hr
    split at hr
    · rcases hav : any_verified (check_subscription (ensure_user db tid) tid now).2 tid
        with _ | _
      · rw [hav] at hv
        simp [hav] at hr
        rw [← hr]
        constructor
        · intro hcontr
          cases hcontr
        · intro htrue
          rw [← hv] at htrue
          cases htrue
      · rw [hav] at hv
        simp [hav] at hr
        rw [← hr]
        simp [← hv]
    · exfalso
      rcases hres : get_resources (check_subscription (ensure_user db tid) tid now).2
          (toUpperStr code) with _ | ⟨name, m⟩
      · rw [hres] at hr
        simp at hr
      · rw [hres] at hr
        by_cases hname : name = ""
        · simp [hname] at hr
        · simp [hname] at hr
  · intro ps
    rw [isDenied_lookupFlow, isDenied_lookupFlow]
    have husers : ({ db with payments := ps } : DB).users = db.users := rfl
    have hsc : get_search_count { db with payments := ps } tid = get_search_count db tid := rfl
    rw [hsc]
    have hcs : (check_subscription { db with payments := ps } tid now).1 =
        (check_subscription db tid now).1 := by
      unfold check_subscription
      rw [show List.find? (fun u => u.telegram_id == tid)
          ({ db with payments := ps } : DB).users =
            List.find? (fun u => u.telegram_id == tid) db.users from rfl]
      rcases hfind : db.users.find? (fun u => u.telegram_id == tid) with _ | u
      · rw [hfind]
      · rw [hfind]
        dsimp only
        by_cases hp : u.is_paid = true
        · rw [hp]
          rcases he : u.expiry_date with _ | e
          · rfl
          · dsimp only
            by_cases hlt : e < now
            · rw [if_pos hlt, if_pos hlt]
              rfl
            · rw [if_neg hlt, if_neg hlt]
              rfl
        · rw [Bool.not_eq_true] at hp
          rw [hp]
          rfl
    rw [hcs]

/-- Witness for C9 at a denied lookup by a lapsed subscriber. -/
theorem denialReasonOnlyAffectsMessage_witness :
    (lookupFlow c9base 100 7 "CSE211").1 = .denied .subscriptionExpired ∧
    (DenyReason.subscriptionExpired = DenyReason.subscriptionExpired ↔
      any_verified c9base 7 = true) ∧
    (lookupFlow { c9base with payments := [] } 100 7 "CSE211").1.isDenied =
      (lookupFlow c9base 100 7 "CSE211").1.isDenied := by
  refine ⟨by decide, ?_, ?_⟩
  · exact (denialReasonOnlyAffectsMessage c9base 100 7 "CSE211").1 _ (by decide)
  · exact (denialReasonOnlyAffectsMessage c9base 100 7 "CSE211").2 []

/-! ## Claim C2 -/

theorem access_count_toUpper (db : DB) (code : String) :
    access_count db (toUpperStr code) = access_count db code := by
  unfold access_count
  rw [toUpperStr_idem]

theorem get_resources_eq_none (db : DB) (code : String)
    (h : ∀ r ∈ db.resources, ¬(r.subject_code = toUpperStr code)) :
    get_resources db code = none := by
  unfold get_resources
  have hfil : db.resources.filter (fun r => r.subject_code == toUpperStr code) = [] := by
    rw [List.filter_eq_nil_iff]
    intro a ha
    simp [h a ha]
  rw [hfil]

theorem get_user_increment_subject_access (db : DB) (code : String) (tid : Int) :
    get_user (increment_subject_access db code) tid = get_user db tid := by
  unfold get_user
  rw [increment_subject_access_users]

/-- C2: a lookup for a subject code with no catalog rows changes neither the
user's search count nor the subject's access counter; a delivered lookup
bumps the subject's access counter by exactly one and bumps the search count
by exactly one precisely when the user is not actively subscribed; a denied
lookup leaves the catalog, the access table, and the search count untouched. -/
theorem lookupCounterEffects (db : DB) (now : Nat) (tid : Int) (code : String) :
    ((∀ row ∈ db.resources, ¬(row.subject_code = toUpperStr code)) →
      access_count (lookupFlow db now tid code).2 code = access_count db code ∧
      get_search_count (lookupFlow db now tid code).2 tid = get_search_count db tid) ∧
    (∀ name m, (lookupFlow db now tid code).1 = .delivered name m →
      access_count (lookupFlow db now tid code).2 code = access_count db code + 1 ∧
      ((check_subscription db tid now).1 = false →
        get_search_count (lookupFlow db now tid code).2 tid =
          get_search_count db tid + 1) ∧
      ((check_subscription db tid now).1 = true →
        get_search_count (lookupFlow db now tid code).2 tid = get_search_count db tid)) ∧
    ((lookupFlow db now tid code).1.isDenied = true →
      (lookupFlow db now tid code).2.resources = db.resources ∧
      (lookupFlow db now tid code).2.access = db.access ∧
      get_search_count (lookupFlow db now tid code).2 tid = get_search_count db tid) := by
  have hres2 : (check_subscription (ensure_user db tid) tid now).2.resources =
      db.resources := by
    rw [check_subscription_resources, ensure_user_resources]
  have hacc2 : (check_subscription (ensure_user db tid) tid now).2.access = db.access := by
    rw [check_subscription_access, ensure_user_access]
  have hsc2 := get_search_count_cs_ensure db tid now
  have hfst := check_subscription_fst_ensure db tid now
  have huser2 : (get_user (check_subscription (ensure_user db tid) tid now).2 tid).isSome =
      true := by
    rw [get_user_check_subscription_isSome]
    exact get_user_ensure_isSome db tid
  refine ⟨?_, ?_, ?_⟩
  · intro h
    have hnone : get_resources (check_subscription (ensure_user db tid) tid now).2
        (toUpperStr code) = none := by
      apply get_resources_eq_none
      intro r hr
      rw [hres2] at hr
      rw [toUpperStr_idem]
      exact h r hr
    simp only [lookupFlow]
    split
    · exact ⟨access_count_congr _ db code hacc2, hsc2⟩
    · rw [hnone]
      exact ⟨access_count_congr _ db code hacc2, hsc2⟩
  · intro name m hdel
    simp only [lookupFlow] at hdel ⊢
    split at hdel
    · simp at hdel
    · next hc =>
      rw [if_neg hc]
      rcases hres : get_resources (check_subscription (ensure_user db tid) tid now).2
          (toUpperStr code) with _ | ⟨nm, mm⟩
      · rw [hres] at hdel
        simp at hdel
      · rw [hres] at hdel
        dsimp only at hdel ⊢
        by_cases hname : nm = ""
        · simp [hname] at hdel
        · have hnameb : ¬((nm == "") = true) := by simp [hname]
          rw [if_neg hnameb] at hdel ⊢
          have kacc : access_count
              (increment_subject_access (check_subscription (ensure_user db tid) tid now).2
                (toUpperStr code)) code = access_count db code + 1 := by
            rw [← access_count_toUpper]
            rw [access_count_increment]
            rw [access_count_toUpper]
            rw [access_count_congr _ db code hacc2]
          have kusers : get_search_count
              (increment_subject_access (check_subscription (ensure_user db tid) tid now).2
                (toUpperStr code)) tid = get_search_count db tid := by
            rw [get_search_count_congr _ (check_subscription (ensure_user db tid) tid now).2
              tid (increment_subject_access_users _ _)]
            exact hsc2
          have kuser3 : (get_user
              (increment_subject_access (check_subscription (ensure_user db tid) tid now).2
                (toUpperStr code)) tid).isSome = true := by
            rw [get_user_increment_subject_access]
            exact huser2
          refine ⟨?_, ?_, ?_⟩
          · rw [hfst]
            rcases hsub : (check_subscription db tid now).1 with _ | _
            · rw [show (!false) = true from rfl, if_pos rfl]
              rw [access_count_congr _
                (increment_subject_access (check_subscription (ensure_user db tid) tid now).2
                  (toUpperStr code)) code (increment_search_count_access _ _)]
              exact kacc
            · rw [if_neg (by decide : ¬((!true) = true))]
              exact kacc
          · intro hsub
            rw [hfst, hsub]
            rw [show (!false) = true from rfl, if_pos rfl]
            rw [get_search_count_increment _ _ kuser3]
            rw [kusers]
          · intro hsub
            rw [hfst, hsub]
            rw [if_neg (by decide : ¬((!true) = true))]
            exact kusers
  · intro hden
    rcases ho : (lookupFlow db now tid code).1 with r | _ | ⟨nm, mm⟩
    · have hst := lookupFlow_denied_state db now tid code r ho
      rw [hst]
      exact ⟨hres2, hacc2, hsc2⟩
    · rw [ho] at hden
      simp [LookupOutcome.isDenied] at hden
    · rw [ho] at hden
      simp [LookupOutcome.isDenied] at hden

/-- Witness for C2: an empty catalog leaves both counters unchanged; a
delivered lookup bumps the access counter and (unsubscribed) the search
count by one; a denied lookup touches nothing. -/
theorem lookupCounterEffects_witness :
    (access_count (lookupFlow DB.empty 100 7 "CSE211").2 "CSE211" =
        access_count DB.empty "CSE211" ∧
      get_search_count (lookupFlow DB.empty 100 7 "CSE211").2 7 =
        get_search_count DB.empty 7) ∧
    access_count (lookupFlow c2deliver 100 7 "CSE211").2 "CSE211" =
      access_count c2deliver "CSE211" + 1 ∧
    get_search_count (lookupFlow c2deliver 100 7 "CSE211").2 7 =
      get_search_count c2deliver 7 + 1 ∧
    ((lookupFlow c2denied 100 7 "CSE211").2.resources = c2denied.resources ∧
      (lookupFlow c2denied 100 7 "CSE211").2.access = c2denied.access ∧
      get_search_count (lookupFlow c2denied 100 7 "CSE211").2 7 =
        get_search_count c2denied 7) := by
  have hb := (lookupCounterEffects c2deliver 100 7 "CSE211").2.1 "DS"
    [(1, ⟨some "http://n", none, none⟩), (2, .empty), (3, .empty), (4, .empty),
      (5, .empty), (6, .empty)] (by decide)
  exact ⟨(lookupCounterEffects DB.empty 100 7 "CSE211").1 (by decide),
    hb.1, hb.2.1 (by decide),
    (lookupCounterEffects c2denied 100 7 "CSE211").2.2 (by decide)⟩

/-! ## Claim C8 -/

/-- C8: at every input step of the guided resource-entry flow, an input that
fails that step's validation leaves the conversation state, the accumulated
partial entry, and the database unchanged and re-prompts the same step; in
particular any number of consecutive invalid inputs leaves everything
unchanged. -/
theorem guidedEntryInvalidInputStable (db : DB) (ud : UserData) (st : Nat)
    (hst : ud.conversation_state = some st) (hle : st ≤ 4) :
    (∀ text, invalidInput st (pyStrip text) = true →
      process_resource_conversation db true ud text = (ud, db, .reprompt st)) ∧
    (∀ texts : List String, (∀ t ∈ texts, invalidInput st (pyStrip t) = true) →
      convIterate (ud, db) texts = (ud, db)) := by
  have key : ∀ (d : DB) (text : String), invalidInput st (pyStrip text) = true →
      process_resource_conversation d true ud text = (ud, d, .reprompt st) := by
    intro d text hinv
    interval_cases st
    · simp only [invalidInput] at hinv
      simp [ADD_SUBJECT_CODE, ADD_SUBJECT_NAME, ADD_UNIT_NUMBER, ADD_RESOURCE_TYPE,
        ADD_RESOURCE_LINK] at hinv
      simp [process_resource_conversation, hst, ADD_SUBJECT_CODE, ADD_SUBJECT_NAME,
        ADD_UNIT_NUMBER, ADD_RESOURCE_TYPE, ADD_RESOURCE_LINK, ADD_CONFIRMATION, hinv]
    · simp only [invalidInput] at hinv
      simp [ADD_SUBJECT_CODE, ADD_SUBJECT_NAME, ADD_UNIT_NUMBER, ADD_RESOURCE_TYPE,
        ADD_RESOURCE_LINK] at hinv
      rcases hinv with h | h <;>
        simp [process_resource_conversation, hst, ADD_SUBJECT_CODE, ADD_SUBJECT_NAME,
          ADD_UNIT_NUMBER, ADD_RESOURCE_TYPE, ADD_RESOURCE_LINK, ADD_CONFIRMATION, h,
          Nat.not_lt.mpr (le_of_lt h)]
    · simp only [invalidInput] at hinv
      simp [ADD_SUBJECT_CODE, ADD_SUBJECT_NAME, ADD_UNIT_NUMBER, ADD_RESOURCE_TYPE,
        ADD_RESOURCE_LINK] at hinv
      rcases hp : parseIntPy (pyStrip text) with _ | n
      · simp [process_resource_conversation, hst, ADD_SUBJECT_CODE, ADD_SUBJECT_NAME,
          ADD_UNIT_NUMBER, ADD_RESOURCE_TYPE, ADD_RESOURCE_LINK, ADD_CONFIRMATION, hp]
      · rw [hp] at hinv
        simp at hinv
        rcases hinv with h | h <;>
          simp [process_resource_conversation, hst, ADD_SUBJECT_CODE, ADD_SUBJECT_NAME,
            ADD_UNIT_NUMBER, ADD_RESOURCE_TYPE, ADD_RESOURCE_LINK, ADD_CONFIRMATION, hp, h]
    · simp only [invalidInput] at hinv
      simp [ADD_SUBJECT_CODE, ADD_SUBJECT_NAME, ADD_UNIT_NUMBER, ADD_RESOURCE_TYPE,
        ADD_RESOURCE_LINK] at hinv
      simp [process_resource_conversation, hst, ADD_SUBJECT_CODE, ADD_SUBJECT_NAME,
        ADD_UNIT_NUMBER, ADD_RESOURCE_TYPE, ADD_RESOURCE_LINK, ADD_CONFIRMATION,
        hinv.1.1, hinv.1.2, hinv.2]
    · simp only [invalidInput] at hinv
      simp [ADD_SUBJECT_CODE, ADD_SUBJECT_NAME, ADD_UNIT_NUMBER, ADD_RESOURCE_TYPE,
        ADD_RESOURCE_LINK] at hinv
      simp [process_resource_conversation, hst, ADD_SUBJECT_CODE, ADD_SUBJECT_NAME,
        ADD_UNIT_NUMBER, ADD_RESOURCE_TYPE, ADD_RESOURCE_LINK, ADD_CONFIRMATION, hinv]
  refine ⟨key db, ?_⟩
  intro texts hall
  induction texts generalizing db with
  | nil => rfl
  | cons t ts ih =>
    have h1 := key db t (hall t (by simp))
    unfold convIterate
    rw [List.foldl_cons]
    have hstep : ((process_resource_conversation db true ud t).1,
        (process_resource_conversation db true ud t).2.1) = (ud, db) := by
      rw [h1]
    dsimp only
    rw [h1]
    exact ih db (fun x hx => hall x (by simp [hx]))

/-- Witness for C8 at the unit-number step: the out-of-range input "9" and a
run of three invalid inputs each leave conversation state, partial entry and
database unchanged. -/
theorem guidedEntryInvalidInputStable_witness :
    process_resource_conversation DB.empty true
      { conversation_state := some ADD_UNIT_NUMBER } "9" =
      ({ conversation_state := some ADD_UNIT_NUMBER }, DB.empty,
        .reprompt ADD_UNIT_NUMBER) ∧
    convIterate ({ conversation_state := some ADD_UNIT_NUMBER }, DB.empty)
      ["abc", "0", "9"] =
      ({ conversation_state := some ADD_UNIT_NUMBER }, DB.empty) := by
  have h := guidedEntryInvalidInputStable DB.empty
    { conversation_state := some ADD_UNIT_NUMBER } ADD_UNIT_NUMBER rfl (by decide)
  exact ⟨h.1 "9" (by decide), h.2 ["abc", "0", "9"] (by decide)⟩

/-! ## Claim C7 -/

theorem length_filter_bool_split {α : Type _} (l : List α) (p : α → Bool) :
    (l.filter p).length + (l.filter (fun a => !p a)).length = l.length := by
  induction l with
  | nil => rfl
  | cons a t ih =>
    by_cases h : p a = true
    · simp [List.filter_cons, h]
      omega
    · rw [Bool.not_eq_true] at h
      simp [List.filter_cons, h]
      omega

theorem mem_insertSet (l : List String) (x s : String) :
    s ∈ insertSet l x ↔ s ∈ l ∨ s = x := by
  unfold insertSet
  by_cases h : l.contains x = true
  · rw [if_pos h]
    constructor
    · exact fun hs => Or.inl hs
    · rintro (hs | rfl)
      · exact hs
      · obtain ⟨y, hy, hys⟩ := List.contains_iff_exists_mem_beq.mp h
        rw [show s = y from by simpa using hys]
        exact hy
  · rw [if_neg h]
    simp [List.mem_append]

theorem bulkErrsFrom_eq_enumFrom (l : List JsonResource) : ∀ i,
    bulkErrsFrom i l = (List.enumFrom i l).filterMap (fun e =>
      match itemCheck e.2 with
      | .error k => some (e.1 + 1, k)
      | .ok _ => none) := by
  induction l with
  | nil => intro i; rfl
  | cons it rest ih =>
    intro i
    rcases hchk : itemCheck it with k | p
    · simp only [bulkErrsFrom, hchk, List.enumFrom, List.filterMap_cons]
      rw [ih (i + 1)]
    · simp only [bulkErrsFrom, hchk, List.enumFrom, List.filterMap_cons]
      rw [ih (i + 1)]

/-- Full characterisation of the bulk-import loop relative to an arbitrary
starting accumulator. -/
theorem bulkLoop_spec (items : List JsonResource) : ∀ (db : DB) (acc : BulkAcc) (i : Nat),
    (bulkLoop db acc i items).1.successful =
      acc.successful + (items.filter itemOk).length ∧
    (bulkLoop db acc i items).1.failed =
      acc.failed + (items.filter (fun it => !itemOk it)).length ∧
    (bulkLoop db acc i items).1.errors = acc.errors ++ bulkErrsFrom i items ∧
    (bulkLoop db acc i items).2 =
      items.foldl (fun d it => match itemCheck it with
        | .ok p => commitItem d p
        | .error _ => d) db ∧
    (∀ s, s ∈ (bulkLoop db acc i items).1.subjects ↔
      s ∈ acc.subjects ∨ ∃ it ∈ items, ∃ pl, itemCheck it = .ok pl ∧ pl.1 = s) := by
  induction items with
  | nil =>
    intro db acc i
    simp [bulkLoop, bulkErrsFrom]
  | cons it rest ih =>
    intro db acc i
    rcases hchk : itemCheck it with k | p
    · obtain ⟨h1, h2, h3, h4, h5⟩ := ih db
        { acc with failed := acc.failed + 1, errors := acc.errors ++ [(i + 1, k)] } (i + 1)
      simp only [bulkLoop, hchk]
      refine ⟨?_, ?_, ?_, ?_, ?_⟩
      · rw [h1]
        simp [List.filter_cons, itemOk, hchk]
      · rw [h2]
        simp [List.filter_cons, itemOk, hchk]
        omega
      · rw [h3]
        simp [bulkErrsFrom, hchk]
      · rw [h4]
        simp [List.foldl_cons, hchk]
      · intro s
        rw [h5 s]
        constructor
        · rintro (hs | hs)
          · exact Or.inl hs
          · right
            obtain ⟨x, hx, pl, hpl, hps⟩ := hs
            exact ⟨x, List.mem_cons_of_mem _ hx, pl, hpl, hps⟩
        · rintro (hs | hs)
          · exact Or.inl hs
          · obtain ⟨x, hx, pl, hpl, hps⟩ := hs
            rcases List.mem_cons.mp hx with rfl | hx'
            · rw [hchk] at hpl
              cases hpl
            · exact Or.inr ⟨x, hx', pl, hpl, hps⟩
    · obtain ⟨h1, h2, h3, h4, h5⟩ := ih (commitItem db p)
        { acc with successful := acc.successful + 1,
                   subjects := insertSet acc.subjects p.1 } (i + 1)
      simp only [bulkLoop, hchk]
      refine ⟨?_, ?_, ?_, ?_, ?_⟩
      · rw [h1]
        simp [List.filter_cons, itemOk, hchk]
        omega
      · rw [h2]
        simp [List.filter_cons, itemOk, hchk]
      · rw [h3]
        simp [bulkErrsFrom, hchk]
      · rw [h4]
        simp [List.foldl_cons, hchk]
      · intro s
        rw [h5 s]
        rw [mem_insertSet]
        constructor
        · rintro ((hs | rfl) | hs)
          · exact Or.inl hs
          · exact Or.inr ⟨it, List.mem_cons_self it rest, p, hchk, rfl⟩
          · obtain ⟨x, hx, pl, hpl, hps⟩ := hs
            exact Or.inr ⟨x, List.mem_cons_of_mem _ hx, pl, hpl, hps⟩
        · rintro (hs | hs)
          · exact Or.inl (Or.inl hs)
          · obtain ⟨x, hx, pl, hpl, hps⟩ := hs
            rcases List.mem_cons.mp hx with rfl | hx'
            · rw [hchk] at hpl
              injection hpl with hpl'
              exact Or.inl (Or.inr (by rw [← hps, ← hpl']))
            · exact Or.inr ⟨x, hx', pl, hpl, hps⟩

/-- C7: every bulk-import entry is validated and committed independently —
the success and failure tallies are the number of valid and invalid entries
(and sum to the batch length), the error list records exactly the invalid
entries tagged with their 1-based positions, the final store is the fold of
the catalog upsert over the valid entries alone (no abort), and the reported
subject set contains exactly the codes of the committed entries; in
particular the 3-item batch whose second item lacks `link` yields 2
successes, 1 failure naming item 2, with both successes committed. -/
theorem bulkImportIndependent (db : DB) (items : List JsonResource) :
    (process_json_upload db items).1.successful = (items.filter itemOk).length ∧
    (process_json_upload db items).1.failed =
      (items.filter (fun it => !itemOk it)).length ∧
    (process_json_upload db items).1.successful +
      (process_json_upload db items).1.failed = items.length ∧
    (process_json_upload db items).1.errors =
      items.enum.filterMap (fun e =>
        match itemCheck e.2 with
        | .error k => some (e.1 + 1, k)
        | .ok _ => none) ∧
    (process_json_upload db items).2 =
      items.foldl (fun d it => match itemCheck it with
        | .ok p => commitItem d p
        | .error _ => d) db ∧
    (∀ s, s ∈ (process_json_upload db items).1.subjects ↔
      ∃ it ∈ items, ∃ pl, itemCheck it = .ok pl ∧ pl.1 = s) ∧
    ((process_json_upload DB.empty c7items).1.successful = 2 ∧
      (process_json_upload DB.empty c7items).1.failed = 1 ∧
      (process_json_upload DB.empty c7items).1.errors = [(2, .missingFields)] ∧
      (process_json_upload DB.empty c7items).2.resources =
        [⟨1, "CSE211", "Data Structures", 1, some "https://a", none, none⟩,
         ⟨2, "CSE211", "Data Structures", 2, none, some "https://b", none⟩]) := by
  obtain ⟨h1, h2, h3, h4, h5⟩ := bulkLoop_spec items db {} 0
  have h1' : (process_json_upload db items).1.successful =
      (items.filter itemOk).length := by simpa [process_json_upload] using h1
  have h2' : (process_json_upload db items).1.failed =
      (items.filter (fun it => !itemOk it)).length := by
    simpa [process_json_upload] using h2
  refine ⟨h1', h2', ?_, ?_, h4, ?_, by decide⟩
  · rw [h1', h2']
    exact length_filter_bool_split items itemOk
  · have h3' : (process_json_upload db items).1.errors = bulkErrsFrom 0 items := by
      simpa [process_json_upload] using h3
    rw [h3', bulkErrsFrom_eq_enumFrom items 0]
    rfl
  · intro s
    rw [show (process_json_upload db items).1.subjects =
      (bulkLoop db {} 0 items).1.subjects from rfl]
    rw [h5 s]
    simp

/-! ## Claims C5 and C6: the resource catalog -/

theorem find?_cons_pos' {α : Type _} (p : α → Bool) (a : α) (l : List α)
    (h : p a = true) : List.find? p (a :: l) = some a :=
  List.find?_cons_of_pos l h

theorem find?_cons_neg' {α : Type _} (p : α → Bool) (a : α) (l : List α)
    (h : ¬(p a = true)) : List.find? p (a :: l) = List.find? p l :=
  List.find?_cons_of_neg l h

theorem keys_applyRow (m : ResMap) (r : ResourceRow) :
    (applyRow m r).map Prod.fst = m.map Prod.fst := by
  unfold applyRow
  rw [List.map_map]
  apply List.map_congr_left
  intro e _
  by_cases h : (e.1 == r.unit_number) = true
  · simp [Function.comp, h]
  · simp [Function.comp, h]

theorem keys_fold_applyRow (rows : List ResourceRow) : ∀ m : ResMap,
    (rows.foldl applyRow m).map Prod.fst = m.map Prod.fst := by
  induction rows with
  | nil => intro m; rfl
  | cons r rest ih =>
    intro m
    rw [List.foldl_cons, ih, keys_applyRow]

theorem find?_applyRow_ne (m : ResMap) (r : ResourceRow) (u : Int)
    (h : ¬(r.unit_number = u)) :
    (applyRow m r).find? (fun e => e.1 == u) = m.find? (fun e => e.1 == u) := by
  unfold applyRow
  induction m with
  | nil => rfl
  | cons e t ih =>
    simp only [List.map_cons]
    by_cases he : (e.1 == u) = true
    · have heq : e.1 = u := by simpa using he
      have hne : (e.1 == r.unit_number) = false := by
        rw [heq]
        simp
        exact fun hh => h hh.symm
      rw [if_neg (by simp [hne])]
      rw [find?_cons_pos' (fun e => e.1 == u) e _ he,
        find?_cons_pos' (fun e => e.1 == u) e _ he]
    · by_cases hr : (e.1 == r.unit_number) = true
      · rw [if_pos hr]
        have he2 : ¬((((e.1,
            { notes := if truthy r.notes_link then r.notes_link else e.2.notes,
              ppt := if truthy r.ppt_link then r.ppt_link else e.2.ppt,
              pyq := if truthy r.pyq_link then r.pyq_link else e.2.pyq }) :
            Int × UnitRes)).1 == u) = true := by simpa using he
        rw [find?_cons_neg' (fun x : Int × UnitRes => x.1 == u) _ _ he2]
        rw [find?_cons_neg' (fun x : Int × UnitRes => x.1 == u) e t (by simpa using he)]
        exact ih
      · rw [if_neg hr]
        rw [find?_cons_neg' (fun x : Int × UnitRes => x.1 == u) e _ (by simpa using he),
          find?_cons_neg' (fun x : Int × UnitRes => x.1 == u) e t (by simpa using he)]
        exact ih

theorem find?_fold_ne (rows : List ResourceRow) (u : Int)
    (h : ∀ r ∈ rows, ¬(r.unit_number = u)) : ∀ m : ResMap,
    (rows.foldl applyRow m).find? (fun e => e.1 == u) =
      m.find? (fun e => e.1 == u) := by
  induction rows with
  | nil => intro m; rfl
  | cons r rest ih =>
    intro m
    rw [List.foldl_cons]
    rw [ih (fun t ht => h t (List.mem_cons_of_mem _ ht))]
    exact find?_applyRow_ne m r u (h r (List.mem_cons_self r rest))

theorem find?_applyRow_eq (m : ResMap) (r : ResourceRow) :
    (applyRow m r).find? (fun e => e.1 == r.unit_number) =
      (m.find? (fun e => e.1 == r.unit_number)).map (fun e =>
        (e.1, { notes := if truthy r.notes_link then r.notes_link else e.2.notes,
                ppt := if truthy r.ppt_link then r.ppt_link else e.2.ppt,
                pyq := if truthy r.pyq_link then r.pyq_link else e.2.pyq })) :=
  find?_map_ite m (fun e => e.1 == r.unit_number) (fun e =>
    (e.1, { notes := if truthy r.notes_link then r.notes_link else e.2.notes,
            ppt := if truthy r.ppt_link then r.ppt_link else e.2.ppt,
            pyq := if truthy r.pyq_link then r.pyq_link else e.2.pyq }))
    (fun _a ha => ha)

theorem find?_fold_preserve (rows : List ResourceRow) (s : ResourceRow) (u : Int)
    (hs : s.unit_number = u)
    (htr : truthy s.notes_link = true ∧ truthy s.ppt_link = true ∧
      truthy s.pyq_link = true)
    (huniq : ∀ t ∈ rows, t.unit_number = u → t = s) : ∀ m : ResMap,
    m.find? (fun e => e.1 == u) =
      some (u, ⟨s.notes_link, s.ppt_link, s.pyq_link⟩) →
    (rows.foldl applyRow m).find? (fun e => e.1 == u) =
      some (u, ⟨s.notes_link, s.ppt_link, s.pyq_link⟩) := by
  induction rows with
  | nil => intro m hm; exact hm
  | cons t rest ih =>
    intro m hm
    rw [List.foldl_cons]
    apply ih (fun x hx => huniq x (List.mem_cons_of_mem _ hx))
    by_cases ht : t.unit_number = u
    · have hts : t = s := huniq t (List.mem_cons_self t rest) ht
      subst hts
      have heq := find?_applyRow_eq m t
      rw [hs] at heq
      rw [heq, hm]
      simp [htr.1, htr.2.1, htr.2.2]
    · rw [find?_applyRow_ne m t u ht]
      exact hm

theorem find?_fold_unique (rows : List ResourceRow) (s : ResourceRow) (u : Int)
    (hs : s.unit_number = u)
    (htr : truthy s.notes_link = true ∧ truthy s.ppt_link = true ∧
      truthy s.pyq_link = true)
    (huniq : ∀ t ∈ rows, t.unit_number = u → t = s) :
    ∀ m : ResMap, s ∈ rows → (∃ v, m.find? (fun e => e.1 == u) = some (u, v)) →
    (rows.foldl applyRow m).find? (fun e => e.1 == u) =
      some (u, ⟨s.notes_link, s.ppt_link, s.pyq_link⟩) := by
  induction rows with
  | nil => intro m hmem; cases hmem
  | cons t rest ih =>
    intro m hmem hv
    rw [List.foldl_cons]
    by_cases ht : t.unit_number = u
    · have hts : t = s := huniq t (List.mem_cons_self t rest) ht
      subst hts
      have hfind : (applyRow m t).find? (fun e => e.1 == u) =
          some (u, ⟨t.notes_link, t.ppt_link, t.pyq_link⟩) := by
        obtain ⟨v, hv⟩ := hv
        have heq := find?_applyRow_eq m t
        rw [hs] at heq
        rw [heq, hv]
        simp [htr.1, htr.2.1, htr.2.2]
      exact find?_fold_preserve rest t u hs htr
        (fun x hx => huniq x (List.mem_cons_of_mem _ hx)) _ hfind
    · have hsne : ¬(s = t) := fun hh => ht (by rw [← hh]; exact hs)
      have hmem' : s ∈ rest := by
        rcases List.mem_cons.mp hmem with rfl | hx
        · exact absurd rfl hsne
        · exact hx
      apply ih (fun x hx => huniq x (List.mem_cons_of_mem _ hx)) _ hmem'
      rw [find?_applyRow_ne m t u ht]
      exact hv

theorem filter_map_pred {α : Type _} (l : List α) (g : α → α) (pc : α → Bool)
    (h : ∀ x, pc (g x) = pc x) :
    (l.map g).filter pc = (l.filter pc).map g := by
  induction l with
  | nil => rfl
  | cons a t ih =>
    simp only [List.map_cons, List.filter_cons, h a]
    by_cases ha : pc a = true
    · rw [if_pos ha, if_pos ha, List.map_cons, ih]
    · rw [if_neg ha, if_neg ha, ih]

theorem initResMap_entry (u : Int) (hu1 : 1 ≤ u) (hu6 : u ≤ 6) :
    initResMap.find? (fun e => e.1 == u) = some (u, UnitRes.empty) := by
  interval_cases u <;> rfl

theorem initResMap_mem_empty : ∀ e ∈ initResMap, e.2 = UnitRes.empty := by
  decide

theorem eq_of_pairwise_find {α : Type _} (l : List α) (p : α → Bool)
    (hp : l.Pairwise (fun a b => p a = true → p b = true → False))
    {x y : α} (hx : x ∈ l) (hy : y ∈ l) (hpx : p x = true) (hpy : p y = true) :
    x = y := by
  induction l with
  | nil => cases hx
  | cons a t ih =>
    rcases List.pairwise_cons.mp hp with ⟨ha, ht⟩
    rcases List.mem_cons.mp hx with rfl | hx'
    · rcases List.mem_cons.mp hy with rfl | hy'
      · rfl
      · exact (ha y hy' hpx hpy).elim
    · rcases List.mem_cons.mp hy with rfl | hy'
      · exact (ha x hx' hpy hpx).elim
      · exact ih ht hx' hy'

theorem truthy_ne_none (o : Option String) (h : truthy o = true) : ¬(o = none) := by
  cases o with
  | none => cases h
  | some s => exact fun hh => by cases hh

/-- A subject/unit pair with no backing row shows nothing in `get` results. -/
theorem resLookup_none_of_no_rows (db : DB) (code : String) (unit : Int)
    (h : ∀ s ∈ db.resources, ¬(s.subject_code = toUpperStr code ∧ s.unit_number = unit)) :
    ∀ t', resLookup db code unit t' = none := by
  intro t'
  unfold resLookup
  rcases hres : get_resources db code with _ | ⟨nm, m⟩
  · rfl
  · unfold get_resources at hres
    rcases hfil : db.resources.filter (fun r => r.subject_code == toUpperStr code)
      with _ | ⟨r0, rs⟩
    · rw [hfil] at hres
      cases hres
    · rw [hfil] at hres
      injection hres with hres'
      have hm : m = (r0 :: rs).foldl applyRow initResMap := (congrArg Prod.snd hres').symm
      have hno : ∀ rr ∈ r0 :: rs, ¬(rr.unit_number = unit) := by
        intro rr hrr
        rw [← hfil] at hrr
        rcases List.mem_filter.mp hrr with ⟨hrrmem, hrrcode⟩
        exact fun hu => h rr hrrmem ⟨by simpa using hrrcode, hu⟩
      dsimp only
      rw [hm, find?_fold_ne (r0 :: rs) unit hno initResMap]
      rcases hinit : initResMap.find? (fun e => e.1 == unit) with _ | e
      · rw [hinit]
      · have he := initResMap_mem_empty e (List.mem_of_find?_eq_some hinit)
        rw [hinit]
        dsimp only
        rw [he]
        split
        · rfl
        · split
          · rfl
          · split
            · rfl
            · rfl

theorem remove_resource_notes_eq (db : DB) (code : String) (unit : Int)
    (r : ResourceRow) (cleared : List ResourceRow)
    (hcl : cleared = db.resources.map (fun s =>
      if s.rid == r.rid then { s with notes_link := none } else s))
    (hfind : db.resources.find? (fun s =>
      s.subject_code == toUpperStr code && s.unit_number == unit) = some r)
    (htr : truthy r.notes_link = true)
    (hppt : r.ppt_link = none) (hpyq : r.pyq_link = none)
    (hcfind : cleared.find? (fun s => s.rid == r.rid) =
      some { r with notes_link := none }) :
    remove_resource db code unit "notes" =
      (true, { db with resources := cleared.filter (fun t => !(t.rid == r.rid)) }) := by
  simp only [remove_resource, hfind]
  rw [show (("notes" : String) == "notes") = true from rfl]
  simp only [if_true, htr, Bool.not_true, Bool.false_eq_true, if_false]
  rw [← hcl, hcfind]
  simp only [hppt, hpyq]
  rfl

theorem remove_resource_ppt_eq (db : DB) (code : String) (unit : Int)
    (r : ResourceRow) (cleared : List ResourceRow)
    (hcl : cleared = db.resources.map (fun s =>
      if s.rid == r.rid then { s with ppt_link := none } else s))
    (hfind : db.resources.find? (fun s =>
      s.subject_code == toUpperStr code && s.unit_number == unit) = some r)
    (htr : truthy r.ppt_link = true)
    (hnotes : r.notes_link = none) (hpyq : r.pyq_link = none)
    (hcfind : cleared.find? (fun s => s.rid == r.rid) =
      some { r with ppt_link := none }) :
    remove_resource db code unit "ppt" =
      (true, { db with resources := cleared.filter (fun t => !(t.rid == r.rid)) }) := by
  simp only [remove_resource, hfind]
  rw [show (("ppt" : String) == "notes") = false from rfl,
    show (("ppt" : String) == "ppt") = true from rfl]
  simp only [if_true, Bool.false_eq_true, if_false, htr, Bool.not_true]
  rw [← hcl, hcfind]
  simp only [hnotes, hpyq]
  rfl

theorem remove_resource_pyq_eq (db : DB) (code : String) (unit : Int)
    (r : ResourceRow) (cleared : List ResourceRow)
    (hcl : cleared = db.resources.map (fun s =>
      if s.rid == r.rid then { s with pyq_link := none } else s))
    (hfind : db.resources.find? (fun s =>
      s.subject_code == toUpperStr code && s.unit_number == unit) = some r)
    (htr : truthy r.pyq_link = true)
    (hnotes : r.notes_link = none) (hppt : r.ppt_link = none)
    (hcfind : cleared.find? (fun s => s.rid == r.rid) =
      some { r with pyq_link := none }) :
    remove_resource db code unit "pyq" =
      (true, { db with resources := cleared.filter (fun t => !(t.rid == r.rid)) }) := by
  simp only [remove_resource, hfind]
  rw [show (("pyq" : String) == "notes") = false from rfl,
    show (("pyq" : String) == "ppt") = false from rfl,
    show (("pyq" : String) == "pyq") = true from rfl]
  simp only [if_true, Bool.false_eq_true, if_false, htr, Bool.not_true]
  rw [← hcl, hcfind]
  simp only [hnotes, hppt]
  rfl

/-- Bool-level pairwise distinctness of row ids relative to a fixed row. -/
theorem pairwise_rid_bool (db : DB) (hwf : resourcesWF db) (r : ResourceRow) :
    db.resources.Pairwise (fun a b =>
      (a.rid == r.rid) = true → (b.rid == r.rid) = true → False) := by
  refine List.Pairwise.imp ?_ hwf.1
  intro a b hab ha hb
  exact hab (by rw [show a.rid = r.rid from by simpa using ha,
    show b.rid = r.rid from by simpa using hb])

/-- Bool-level pairwise distinctness of (code, unit) keys. -/
theorem pairwise_key_bool (db : DB) (hwf : resourcesWF db) (code : String) (unit : Int) :
    db.resources.Pairwise (fun a b =>
      (a.subject_code == toUpperStr code && a.unit_number == unit) = true →
      (b.subject_code == toUpperStr code && b.unit_number == unit) = true → False) := by
  refine List.Pairwise.imp ?_ hwf.2.1
  intro a b hab ha hb
  rw [Bool.and_eq_true] at ha hb
  refine hab ⟨?_, ?_⟩
  · rw [show a.subject_code = toUpperStr code from by simpa using ha.1,
      show b.subject_code = toUpperStr code from by simpa using hb.1]
  · rw [show a.unit_number = unit from by simpa using ha.2,
      show b.unit_number = unit from by simpa using hb.2]

/-- After clearing one field of the unique (code, unit) row and deleting its
row id, no row with that (code, unit) key remains. -/
theorem cleared_filter_no_key (db : DB) (code : String) (unit : Int) (r : ResourceRow)
    (g : ResourceRow → ResourceRow)
    (hwf : resourcesWF db) (hmem : r ∈ db.resources)
    (hcode : r.subject_code = toUpperStr code) (hunit : r.unit_number = unit)
    (hgrid : ∀ x, (g x).rid = x.rid) :
    ∀ s ∈ (db.resources.map (fun x => if x.rid == r.rid then g x else x)).filter
        (fun t => !(t.rid == r.rid)),
      ¬(s.subject_code = toUpperStr code ∧ s.unit_number = unit) := by
  intro s hs ⟨hscode, hsunit⟩
  rcases List.mem_filter.mp hs with ⟨hsmem, hsrid⟩
  rcases List.mem_map.mp hsmem with ⟨x, hx, hxeq⟩
  by_cases hcase : (x.rid == r.rid) = true
  · rw [if_pos hcase] at hxeq
    rw [← hxeq] at hsrid
    rw [hgrid x] at hsrid
    simp [hcase] at hsrid
  · rw [if_neg hcase] at hxeq
    subst hxeq
    have hxr : x = r := eq_of_pairwise_find db.resources
      (fun a => a.subject_code == toUpperStr code && a.unit_number == unit)
      (pairwise_key_bool db hwf code unit) hx hmem
      (by simp [hscode, hsunit]) (by simp [hcode, hunit])
    rw [hxr] at hcase
    simp at hcase

/-- C5: no resource row with all three links NULL ever persists — removing
the last remaining link of the unique (code, unit) row succeeds and deletes
the row, so a subsequent `get` shows nothing for that (code, unit); and each
catalog operation (upsert carrying at least one link, field removal, field
edit, subject deletion) preserves the no-empty-row invariant. -/
theorem noEmptyRowInvariant (db : DB) :
    (∀ code unit rtype r, resourcesWF db → r ∈ db.resources →
      r.subject_code = toUpperStr code → r.unit_number = unit → lastFieldHyp r rtype →
      (remove_resource db code unit rtype).1 = true ∧
      ∀ t', resLookup (remove_resource db code unit rtype).2 code unit t' = none) ∧
    (∀ code name unit notes ppt pyq, noEmptyRow db →
      (truthy notes || truthy ppt || truthy pyq) = true →
      noEmptyRow (add_resource db code name unit notes ppt pyq).2) ∧
    (∀ code unit rtype, noEmptyRow db → resourcesWF db →
      noEmptyRow (remove_resource db code unit rtype).2) ∧
    (∀ code unit rtype link, noEmptyRow db →
      noEmptyRow (edit_resource db code unit rtype link).2) ∧
    (∀ code, noEmptyRow db → noEmptyRow (delete_subject db code).2) := by
  refine ⟨?_, ?_, ?_, ?_, ?_⟩
  · intro code unit rtype r hwf hmem hcode hunit hlast
    have hfind : db.resources.find? (fun s =>
        s.subject_code == toUpperStr code && s.unit_number == unit) = some r :=
      find?_eq_of_pairwise db.resources _ r (pairwise_key_bool db hwf code unit) hmem
        (by simp [hcode, hunit])
    have hridfind : db.resources.find? (fun s => s.rid == r.rid) = some r :=
      find?_eq_of_pairwise db.resources _ r (pairwise_rid_bool db hwf r) hmem (by simp)
    rcases hlast with ⟨hrt, htr, hb2, hb3⟩ | ⟨hrt, htr, hb2, hb3⟩ | ⟨hrt, htr, hb2, hb3⟩ <;>
      subst hrt
    · have hcfind : (db.resources.map (fun s =>
          if s.rid == r.rid then { s with notes_link := none } else s)).find?
          (fun s => s.rid == r.rid) = some { r with notes_link := none } := by
        rw [find?_map_ite db.resources (fun s => s.rid == r.rid)
          (fun s => { s with notes_link := none }) (fun a ha => ha), hridfind]
        rfl
      have heq := remove_resource_notes_eq db code unit r _ rfl hfind htr hb2 hb3 hcfind
      rw [heq]
      refine ⟨rfl, ?_⟩
      apply resLookup_none_of_no_rows
      exact cleared_filter_no_key db code unit r (fun s => { s with notes_link := none })
        hwf hmem hcode hunit (fun x => rfl)
    · have hcfind : (db.resources.map (fun s =>
          if s.rid == r.rid then { s with ppt_link := none } else s)).find?
          (fun s => s.rid == r.rid) = some { r with ppt_link := none } := by
        rw [find?_map_ite db.resources (fun s => s.rid == r.rid)
          (fun s => { s with ppt_link := none }) (fun a ha => ha), hridfind]
        rfl
      have heq := remove_resource_ppt_eq db code unit r _ rfl hfind htr hb2 hb3 hcfind
      rw [heq]
      refine ⟨rfl, ?_⟩
      apply resLookup_none_of_no_rows
      exact cleared_filter_no_key db code unit r (fun s => { s with ppt_link := none })
        hwf hmem hcode hunit (fun x => rfl)
    · have hcfind : (db.resources.map (fun s =>
          if s.rid == r.rid then { s with pyq_link := none } else s)).find?
          (fun s => s.rid == r.rid) = some { r with pyq_link := none } := by
        rw [find?_map_ite db.resources (fun s => s.rid == r.rid)
          (fun s => { s with pyq_link := none }) (fun a ha => ha), hridfind]
        rfl
      have heq := remove_resource_pyq_eq db code unit r _ rfl hfind htr hb2 hb3 hcfind
      rw [heq]
      refine ⟨rfl, ?_⟩
      apply resLookup_none_of_no_rows
      exact cleared_filter_no_key db code unit r (fun s => { s with pyq_link := none })
        hwf hmem hcode hunit (fun x => rfl)
  · intro code name unit notes ppt pyq hne htr
    have updne : ∀ (o old : Option String), ¬(old = none) →
        ¬((if truthy o then o else old) = none) := by
      intro o old h
      by_cases ht : truthy o = true
      · rw [if_pos ht]
        exact truthy_ne_none o ht
      · rw [if_neg ht]
        exact h
    unfold add_resource
    rcases hfind : db.resources.find? (fun s =>
        s.subject_code == toUpperStr code && s.unit_number == unit) with _ | r
    · intro s hs
      rw [hfind] at hs
      dsimp only at hs
      rcases List.mem_append.mp hs with hsold | hsnew
      · exact hne s hsold
      · have hseq : s = ⟨db.nextRid, toUpperStr code, name, unit, notes, ppt, pyq⟩ := by
          simpa using hsnew
        subst hseq
        rintro ⟨h1, h2, h3⟩
        rw [Bool.or_eq_true, Bool.or_eq_true] at htr
        rcases htr with (h | h) | h
        · exact truthy_ne_none notes h h1
        · exact truthy_ne_none ppt h h2
        · exact truthy_ne_none pyq h h3
    · intro s hs
      rw [hfind] at hs
      dsimp only at hs
      rcases List.mem_map.mp hs with ⟨x, hx, hxeq⟩
      by_cases hcase : (x.rid == r.rid) = true
      · rw [if_pos hcase] at hxeq
        subst hxeq
        rintro ⟨h1, h2, h3⟩
        refine hne x hx ⟨?_, ?_, ?_⟩
        · by_contra hxn
          exact updne notes x.notes_link hxn h1
        · by_contra hxn
          exact updne ppt x.ppt_link hxn h2
        · by_contra hxn
          exact updne pyq x.pyq_link hxn h3
      · rw [if_neg hcase] at hxeq
        subst hxeq
        exact hne x hx
  · intro code unit rtype hne hwf
    simp only [remove_resource]
    rcases hfind : db.resources.find? (fun s =>
        s.subject_code == toUpperStr code && s.unit_number == unit) with _ | r
    · rw [hfind]
      exact hne
    · rw [hfind]
      dsimp only
      have hridfind : db.resources.find? (fun s => s.rid == r.rid) = some r :=
        find?_eq_of_pairwise db.resources _ r (pairwise_rid_bool db hwf r)
          (List.mem_of_find?_eq_some hfind) (by simp)
      have hchainrid : ∀ x : ResourceRow,
          ((if (rtype == "notes") = true then { x with notes_link := none }
            else if (rtype == "ppt") = true then { x with ppt_link := none }
            else { x with pyq_link := none })).rid = x.rid := by
        intro x
        split
        · rfl
        · split <;> rfl
      have hcfind : (db.resources.map (fun s =>
          if s.rid == r.rid then
            (if (rtype == "notes") = true then { s with notes_link := none }
              else if (rtype == "ppt") = true then { s with ppt_link := none }
              else { s with pyq_link := none })
          else s)).find? (fun s => s.rid == r.rid) =
          some (if (rtype == "notes") = true then { r with notes_link := none }
            else if (rtype == "ppt") = true then { r with ppt_link := none }
            else { r with pyq_link := none }) := by
        rw [find?_map_ite db.resources (fun s => s.rid == r.rid)
          (fun s => if (rtype == "notes") = true then { s with notes_link := none }
            else if (rtype == "ppt") = true then { s with ppt_link := none }
            else { s with pyq_link := none })
          (fun a ha => by
            dsimp only
            rw [hchainrid a]
            simpa using ha),
          hridfind]
        rfl
      generalize (if (rtype == "notes") = true then truthy r.notes_link
        else if (rtype == "ppt") = true then truthy r.ppt_link
        else if (rtype == "pyq") = true then truthy r.pyq_link
        else false) = fOk
      split
      · exact hne
      · intro s hs
        rw [hcfind] at hs
        dsimp only at hs
        set r0 : ResourceRow := (if (rtype == "notes") = true then
            { r with notes_link := none }
          else if (rtype == "ppt") = true then { r with ppt_link := none }
          else { r with pyq_link := none }) with hr0
        split at hs
        · next hallnone =>
          rcases List.mem_filter.mp hs with ⟨hsmem, hsrid⟩
          rcases List.mem_map.mp hsmem with ⟨x, hx, hxeq⟩
          by_cases hcase : (x.rid == r.rid) = true
          · rw [if_pos hcase] at hxeq
            rw [← hxeq] at hsrid
            rw [hchainrid x] at hsrid
            simp [hcase] at hsrid
          · rw [if_neg hcase] at hxeq
            subst hxeq
            exact hne x hx
        · next hallnone =>
          rcases List.mem_map.mp hs with ⟨x, hx, hxeq⟩
          by_cases hcase : (x.rid == r.rid) = true
          · rw [if_pos hcase] at hxeq
            have hxr : x = r := eq_of_pairwise_find db.resources
              (fun a => a.rid == r.rid) (pairwise_rid_bool db hwf r) hx
              (List.mem_of_find?_eq_some hfind) hcase (by simp)
            subst hxr
            rw [← hr0] at hxeq
            subst hxeq
            rintro ⟨h1, h2, h3⟩
            exact hallnone (by simp [h1, h2, h3])
          · rw [if_neg hcase] at hxeq
            subst hxeq
            exact hne x hx
  · intro code unit rtype link hne
    unfold edit_resource
    rcases hfind : db.resources.find? (fun s =>
        s.subject_code == toUpperStr code && s.unit_number == unit) with _ | r
    · rw [hfind]
      exact hne
    · rw [hfind]
      dsimp only
      split
      · intro s hs
        rcases List.mem_map.mp hs with ⟨x, hx, hxeq⟩
        by_cases hcase : (x.rid == r.rid) = true
        · rw [if_pos hcase] at hxeq
          by_cases t1 : (rtype == "notes") = true
          · rw [if_pos t1] at hxeq
            subst hxeq
            rintro ⟨h1, h2, h3⟩
            cases h1
          · rw [if_neg t1] at hxeq
            by_cases t2 : (rtype == "ppt") = true
            · rw [if_pos t2] at hxeq
              subst hxeq
              rintro ⟨h1, h2, h3⟩
              cases h2
            · rw [if_neg t2] at hxeq
              subst hxeq
              rintro ⟨h1, h2, h3⟩
              cases h3
        · rw [if_neg hcase] at hxeq
          subst hxeq
          exact hne x hx
      · exact hne
  · intro code hne
    unfold delete_subject
    split
    · exact hne
    · intro s hs
      exact hne s (List.mem_filter.mp hs).1

theorem noEmptyRowInvariant_witness :
    (remove_resource c5db "CSE211" 1 "notes").1 = true ∧
    resLookup (remove_resource c5db "CSE211" 1 "notes").2 "CSE211" 1 "notes" = none ∧
    noEmptyRow (add_resource c5db "MTH101" "Calc" 2 (some "http://a") none none).2 ∧
    noEmptyRow (remove_resource c5db "CSE211" 1 "notes").2 ∧
    noEmptyRow (edit_resource c5db "CSE211" 1 "ppt" "http://p").2 ∧
    noEmptyRow (delete_subject c5db "CSE211").2 := by
  obtain ⟨h1, h2, h3, h4, h5⟩ := noEmptyRowInvariant c5db
  have hr := h1 "CSE211" 1 "notes" ⟨1, "CSE211", "DS", 1, some "http://n", none, none⟩
    (by unfold resourcesWF; decide) (by decide) (by decide) (by decide)
    (by unfold lastFieldHyp; decide)
  exact ⟨hr.1, hr.2 "notes",
    h2 "MTH101" "Calc" 2 (some "http://a") none none (by unfold noEmptyRow; decide) (by decide),
    h3 "CSE211" 1 "notes" (by unfold noEmptyRow; decide) (by unfold resourcesWF; decide),
    h4 "CSE211" 1 "ppt" "http://p" (by unfold noEmptyRow; decide),
    h5 "CSE211" (by unfold noEmptyRow; decide)⟩

/-! ## C6 support: upsert/get round-trip -/

theorem add_resource_mem (db : DB) (code name : String) (unit : Int)
    (notes ppt pyq : Option String)
    (hn : truthy notes = true) (hp : truthy ppt = true) (hq : truthy pyq = true) :
    ∃ r ∈ (add_resource db code name unit notes ppt pyq).2.resources,
      r.subject_code = toUpperStr code ∧ r.unit_number = unit ∧
      r.notes_link = notes ∧ r.ppt_link = ppt ∧ r.pyq_link = pyq := by
  unfold add_resource
  rcases hfind : db.resources.find? (fun r =>
      r.subject_code == toUpperStr code && r.unit_number == unit) with _ | r0
  · rw [hfind]
    dsimp only
    refine ⟨⟨db.nextRid, toUpperStr code, name, unit, notes, ppt, pyq⟩, ?_,
      rfl, rfl, rfl, rfl, rfl⟩
    exact List.mem_append_right _ (List.mem_singleton.mpr rfl)
  · rw [hfind]
    dsimp only
    have hpred := List.find?_some hfind
    rw [Bool.and_eq_true] at hpred
    obtain ⟨hc, hu⟩ := hpred
    refine ⟨⟨r0.rid, r0.subject_code, name, r0.unit_number,
        if truthy notes then notes else r0.notes_link,
        if truthy ppt then ppt else r0.ppt_link,
        if truthy pyq then pyq else r0.pyq_link⟩,
      ?_, ?_, ?_, ?_, ?_, ?_⟩
    · exact List.mem_map.mpr ⟨r0, List.mem_of_find?_eq_some hfind,
        by rw [if_pos (by simp)]⟩
    · simpa using hc
    · simpa using hu
    · simp [hn]
    · simp [hp]
    · simp [hq]

theorem add_resource_wf (db : DB) (code name : String) (unit : Int)
    (notes ppt pyq : Option String) (hwf : resourcesWF db) :
    resourcesWF (add_resource db code name unit notes ppt pyq).2 := by
  obtain ⟨hrid, hkey, hlt⟩ := hwf
  unfold add_resource
  rcases hfind : db.resources.find? (fun r =>
      r.subject_code == toUpperStr code && r.unit_number == unit) with _ | r0
  · rw [hfind]
    dsimp only
    refine ⟨?_, ?_, ?_⟩
    · rw [List.pairwise_append]
      refine ⟨hrid, List.pairwise_singleton _ _, ?_⟩
      intro a ha b hb
      rw [List.mem_singleton] at hb
      subst hb
      intro hab
      have := hlt a ha
      dsimp only at hab
      omega
    · rw [List.pairwise_append]
      refine ⟨hkey, List.pairwise_singleton _ _, ?_⟩
      intro a ha b hb
      rw [List.mem_singleton] at hb
      subst hb
      rintro ⟨hac, hau⟩
      have hnone := List.find?_eq_none.mp hfind a ha
      apply hnone
      dsimp only at hac hau
      simp [hac, hau]
    · intro r hr
      rcases List.mem_append.mp hr with h | h
      · have := hlt r h
        dsimp only
        omega
      · rw [List.mem_singleton] at h
        subst h
        dsimp only
        omega
  · rw [hfind]
    dsimp only
    have hgrid : ∀ x : ResourceRow,
        ((if (x.rid == r0.rid) = true then
          { x with subject_name := name,
                   notes_link := if truthy notes then notes else x.notes_link,
                   ppt_link := if truthy ppt then ppt else x.ppt_link,
                   pyq_link := if truthy pyq then pyq else x.pyq_link }
          else x)).rid = x.rid := by
      intro x
      split <;> rfl
    have hgcode : ∀ x : ResourceRow,
        ((if (x.rid == r0.rid) = true then
          { x with subject_name := name,
                   notes_link := if truthy notes then notes else x.notes_link,
                   ppt_link := if truthy ppt then ppt else x.ppt_link,
                   pyq_link := if truthy pyq then pyq else x.pyq_link }
          else x)).subject_code = x.subject_code := by
      intro x
      split <;> rfl
    have hgunit : ∀ x : ResourceRow,
        ((if (x.rid == r0.rid) = true then
          { x with subject_name := name,
                   notes_link := if truthy notes then notes else x.notes_link,
                   ppt_link := if truthy ppt then ppt else x.ppt_link,
                   pyq_link := if truthy pyq then pyq else x.pyq_link }
          else x)).unit_number = x.unit_number := by
      intro x
      split <;> rfl
    refine ⟨?_, ?_, ?_⟩
    · rw [List.pairwise_map]
      refine List.Pairwise.imp ?_ hrid
      intro a b hab hgab
      apply hab
      rw [hgrid a, hgrid b] at hgab
      exact hgab
    · rw [List.pairwise_map]
      refine List.Pairwise.imp ?_ hkey
      intro a b hab hgab
      apply hab
      rw [hgcode a, hgcode b, hgunit a, hgunit b] at hgab
      exact hgab
    · intro r hr
      rcases List.mem_map.mp hr with ⟨x, hx, hxeq⟩
      subst hxeq
      rw [hgrid x]
      exact hlt x hx

theorem resLookup_of_row (db : DB) (code : String) (unit : Int) (r : ResourceRow)
    (hwf : resourcesWF db) (hmem : r ∈ db.resources)
    (hcode : r.subject_code = toUpperStr code) (hunit : r.unit_number = unit)
    (hu1 : 1 ≤ unit) (hu6 : unit ≤ 6)
    (htr : truthy r.notes_link = true ∧ truthy r.ppt_link = true ∧
      truthy r.pyq_link = true) :
    resLookup db code unit "notes" = r.notes_link ∧
    resLookup db code unit "ppt" = r.ppt_link ∧
    resLookup db code unit "pyq" = r.pyq_link := by
  have hrfilt : r ∈ db.resources.filter (fun s =>
      s.subject_code == toUpperStr code) :=
    List.mem_filter.mpr ⟨hmem, by simp [hcode]⟩
  obtain ⟨nm, hget⟩ : ∃ nm, get_resources db code = some (nm,
      (db.resources.filter (fun s =>
        s.subject_code == toUpperStr code)).foldl applyRow initResMap) := by
    unfold get_resources
    rcases hfilt : db.resources.filter (fun s =>
        s.subject_code == toUpperStr code) with _ | ⟨r1, rs⟩
    · rw [hfilt] at hrfilt
      cases hrfilt
    · rw [hfilt]
      exact ⟨r1.subject_name, rfl⟩
  have huniq : ∀ t ∈ db.resources.filter (fun s =>
      s.subject_code == toUpperStr code), t.unit_number = unit → t = r := by
    intro t ht htu
    obtain ⟨htmem, htcode⟩ := List.mem_filter.mp ht
    refine eq_of_pairwise_find db.resources
      (fun a => a.subject_code == toUpperStr code && a.unit_number == unit)
      (pairwise_key_bool db hwf code unit) htmem hmem ?_ ?_
    · rw [Bool.and_eq_true]
      exact ⟨htcode, by simp [htu]⟩
    · rw [Bool.and_eq_true]
      exact ⟨by simp [hcode], by simp [hunit]⟩
  have hfind : ((db.resources.filter (fun s =>
      s.subject_code == toUpperStr code)).foldl applyRow initResMap).find?
      (fun e => e.1 == unit) =
      some (unit, ⟨r.notes_link, r.ppt_link, r.pyq_link⟩) :=
    find?_fold_unique _ r unit hunit htr huniq initResMap hrfilt
      ⟨UnitRes.empty, initResMap_entry unit hu1 hu6⟩
  refine ⟨?_, ?_, ?_⟩
  · unfold resLookup
    rw [hget]
    dsimp only
    rw [hfind]
    rfl
  · unfold resLookup
    rw [hget]
    dsimp only
    rw [hfind]
    rfl
  · unfold resLookup
    rw [hget]
    dsimp only
    rw [hfind]
    rfl

/-- C6: an upsert of the three link fields followed by a get round-trips all
three links for that (code, unit); and a successful get always returns a map
keyed by exactly the units 1..6, in which a unit with no stored rows for the
subject maps to the empty per-type dictionary. -/
theorem upsertGetRoundTrip (db : DB) (code name : String) (unit : Int)
    (n p q : String) (hwf : resourcesWF db) (hu1 : 1 ≤ unit) (hu6 : unit ≤ 6)
    (hn : truthy (some n) = true) (hp : truthy (some p) = true)
    (hq : truthy (some q) = true) :
    (resLookup (add_resource db code name unit (some n) (some p) (some q)).2
        code unit "notes" = some n ∧
      resLookup (add_resource db code name unit (some n) (some p) (some q)).2
        code unit "ppt" = some p ∧
      resLookup (add_resource db code name unit (some n) (some p) (some q)).2
        code unit "pyq" = some q) ∧
    (∀ c nm m, get_resources db c = some (nm, m) →
      m.map Prod.fst = [1, 2, 3, 4, 5, 6] ∧
      ∀ u, 1 ≤ u → u ≤ 6 →
        (∀ r ∈ db.resources, r.subject_code = toUpperStr c →
          ¬(r.unit_number = u)) →
        m.find? (fun e => e.1 == u) = some (u, UnitRes.empty)) := by
  constructor
  · obtain ⟨r, hmem, hcode, hunit, hnl, hpl, hql⟩ :=
      add_resource_mem db code name unit (some n) (some p) (some q) hn hp hq
    have hwf2 := add_resource_wf db code name unit (some n) (some p) (some q) hwf
    have hrt := resLookup_of_row
      (add_resource db code name unit (some n) (some p) (some q)).2
      code unit r hwf2 hmem hcode hunit hu1 hu6
      ⟨by rw [hnl]; exact hn, by rw [hpl]; exact hp, by rw [hql]; exact hq⟩
    rw [hnl, hpl, hql] at hrt
    exact hrt
  · intro c nm m hget
    unfold get_resources at hget
    rcases hfilt : db.resources.filter (fun s =>
        s.subject_code == toUpperStr c) with _ | ⟨r1, rs⟩
    · rw [hfilt] at hget
      cases hget
    · rw [hfilt] at hget
      dsimp only at hget
      rw [Option.some.injEq, Prod.mk.injEq] at hget
      obtain ⟨hnm, hm⟩ := hget
      subst hm
      constructor
      · rw [keys_fold_applyRow]
        rfl
      · intro u h1 h6 hnone
        have hall : ∀ t ∈ r1 :: rs, ¬(t.unit_number = u) := by
          intro t ht
          rw [← hfilt] at ht
          obtain ⟨htmem, htcode⟩ := List.mem_filter.mp ht
          exact hnone t htmem (by simpa using htcode)
        rw [find?_fold_ne (r1 :: rs) u hall initResMap]
        exact initResMap_entry u h1 h6

theorem upsertGetRoundTrip_witness :
    (resLookup (add_resource c6db "cse211" "DS" 1 (some "http://n")
        (some "http://p") (some "http://q")).2 "cse211" 1 "notes" =
      some "http://n" ∧
     resLookup (add_resource c6db "cse211" "DS" 1 (some "http://n")
        (some "http://p") (some "http://q")).2 "cse211" 1 "ppt" =
      some "http://p" ∧
     resLookup (add_resource c6db "cse211" "DS" 1 (some "http://n")
        (some "http://p") (some "http://q")).2 "cse211" 1 "pyq" =
      some "http://q") ∧
    ([(1, UnitRes.empty), (2, UnitRes.empty),
      ((3 : Int), (⟨some "http://x", some "http://y", some "http://z"⟩ : UnitRes)),
      (4, UnitRes.empty), (5, UnitRes.empty),
      (6, UnitRes.empty)].map Prod.fst = [1, 2, 3, 4, 5, 6] ∧
     [(1, UnitRes.empty), (2, UnitRes.empty),
      ((3 : Int), (⟨some "http://x", some "http://y", some "http://z"⟩ : UnitRes)),
      (4, UnitRes.empty), (5, UnitRes.empty),
      (6, UnitRes.empty)].find? (fun e => e.1 == (2 : Int)) =
      some (2, UnitRes.empty)) := by
  obtain ⟨hA, hB⟩ := upsertGetRoundTrip c6db "cse211" "DS" 1 "http://n" "http://p"
    "http://q" (by unfold resourcesWF; decide) (by decide) (by decide)
    (by decide) (by decide) (by decide)
  obtain ⟨hkeys, hempty⟩ := hB "PHY102" "Physics"
    [(1, UnitRes.empty), (2, UnitRes.empty),
     ((3 : Int), (⟨some "http://x", some "http://y", some "http://z"⟩ : UnitRes)),
     (4, UnitRes.empty), (5, UnitRes.empty), (6, UnitRes.empty)] (by decide)
  exact ⟨hA, hkeys, hempty 2 (by decide) (by decide) (by decide)⟩

end CollegeBot
